import Mathlib

/-!
Verification of the TASKFLOW offline-sync and reminder subsystem.

This file gives a shallow embedding, in Lean, of the client pending-operation
queue and its flush (`flushPendingAccountOps`), the server task CRUD routes,
the server push dispatcher cron route, and the client reminder tick, and
proves the stated properties about them.  External platform effects (fetch
transport, Date parsing, web-push delivery, the Notification constructor)
are passed in as explicit oracles/parameters; everything else is translated
directly from the TypeScript source.
-/

namespace TaskFlow

/-! ## Data model (client `Task`, pending operations) -/

inductive TaskPriority
  | LOW
  | MEDIUM
  | HIGH
deriving DecidableEq

/-- Client-side task record.  `id` is a server-assigned positive integer, or
a client-assigned negative placeholder (`-Date.now()`) while offline. -/
structure Task where
  id : Int
  title : String
  description : Option String
  dueDate : String
  dueTime : String
  completed : Bool
  priority : TaskPriority
deriving DecidableEq

/-- TS `Partial<Pick<Task, "title" | "description" | "dueDate" | "dueTime" |
"priority" | "completed">>`: a field-change set.  `description` distinguishes
absent (`none`) from present-but-null (`some none`). -/
structure TaskChanges where
  title : Option String := none
  description : Option (Option String) := none
  dueDate : Option String := none
  dueTime : Option String := none
  priority : Option TaskPriority := none
  completed : Option Bool := none
deriving DecidableEq

inductive PendingAccountOperation
  | create (task : Task) (tempId : Int)
  | update (id : Int) (changes : TaskChanges)
  | delete (id : Int)
deriving DecidableEq

/-- The JS `String.prototype.trim()`: strip whitespace from both ends. -/
def jsTrim (s : String) : String :=
  String.mk
    (((s.toList.dropWhile Char.isWhitespace).reverse.dropWhile
        Char.isWhitespace).reverse)

/-- The TIME_REGEX test `^([01]\d|2[0-3]):([0-5]\d)$`. -/
def isValidTime (value : String) : Bool :=
  match value.toList with
  | [h1, h2, c, m1, m2] =>
    (((h1 == '0' || h1 == '1') && h2.isDigit) ||
      (h1 == '2' && (h2 == '0' || h2 == '1' || h2 == '2' || h2 == '3'))) &&
    c == ':' &&
    (m1 == '0' || m1 == '1' || m1 == '2' || m1 == '3' || m1 == '4' || m1 == '5') &&
    m2.isDigit
  | _ => false

/-! ## Server data model and the task CRUD routes -/

/-- A row of the `Task` table. -/
structure DbTask where
  id : Int
  userId : String
  title : String
  description : Option String
  dueDate : String
  dueTime : String
  completed : Bool
  priority : TaskPriority
deriving DecidableEq

/-- The task table plus the auto-increment counter for new ids. -/
structure ServerState where
  tasks : List DbTask
  nextId : Int
deriving DecidableEq

/-- Body of `POST /api/tasks`.  The route never reads `description`
(`prisma.task.create` is given only title/dueDate/dueTime/priority/userId). -/
structure CreateBody where
  title : String
  description : Option String
  dueDate : String
  dueTime : String
  priority : TaskPriority
deriving DecidableEq

inductive NetReq
  | createTask (body : CreateBody)
  | patchTask (id : Int) (body : TaskChanges)
  | deleteTask (id : Int)
  | listTasks
deriving DecidableEq

inductive NetResp
  | created (t : DbTask)
  | okTask (t : DbTask)
  | okDelete
  | okList (ts : List DbTask)
  | badRequest (msg : String)
  | notFound (msg : String)
  | unauthorized (msg : String)
deriving DecidableEq

/-- The `response.ok` test (HTTP status in the 200 range). -/
def respOk : NetResp → Bool
  | .created _ => true
  | .okTask _ => true
  | .okDelete => true
  | .okList _ => true
  | _ => false

/-- The route handler of `POST /api/tasks` for an authenticated `uid`.
The typed client only ever sends well-formed priorities, so the
`PRIORITIES.includes` check always passes and is not represented. -/
def apiTasksPost (uid : String) (body : CreateBody) (s : ServerState) :
    NetResp × ServerState :=
  let title := jsTrim body.title
  let dueDate := jsTrim body.dueDate
  let dueTime := if jsTrim body.dueTime = "" then "09:00" else jsTrim body.dueTime
  if title = "" || dueDate = "" then
    (.badRequest "Title and due date are required.", s)
  else if !isValidTime dueTime then
    (.badRequest "Invalid due time value.", s)
  else
    let t : DbTask :=
      { id := s.nextId, userId := uid, title := title, description := none,
        dueDate := dueDate, dueTime := dueTime, completed := false,
        priority := body.priority }
    (.created t, { tasks := s.tasks ++ [t], nextId := s.nextId + 1 })

/-- `prisma.task.findFirst({ where: { id: taskId, userId } })`. -/
def findFirstTask (s : ServerState) (taskId : Int) (uid : String) : Option DbTask :=
  s.tasks.find? (fun t => t.id == taskId && t.userId == uid)

/-- The `data` object accumulated by the PATCH handler before
`prisma.task.update`. -/
structure PatchData where
  completed : Option Bool := none
  title : Option String := none
  description : Option (Option String) := none
  dueDate : Option String := none
  dueTime : Option String := none
  priority : Option TaskPriority := none
deriving DecidableEq

/-- Field-by-field validation of the PATCH body, in source order, with the
first failing check returning its 400 message. -/
def buildPatchData (body : TaskChanges) : Except String PatchData := do
  let d : PatchData := { completed := body.completed }
  let d ← match body.title with
    | some t =>
      let t := jsTrim t
      if t = "" then Except.error "Title cannot be empty."
      else Except.ok { d with title := some t }
    | none => Except.ok d
  let d : PatchData := match body.description with
    | some (some ds) =>
      let ds := jsTrim ds
      { d with description := some (if ds = "" then none else some ds) }
    | some none => { d with description := some none }
    | none => d
  let d ← match body.dueDate with
    | some dd =>
      let dd := jsTrim dd
      if dd = "" then Except.error "Due date is required."
      else Except.ok { d with dueDate := some dd }
    | none => Except.ok d
  let d ← match body.dueTime with
    | some dt =>
      let dt := jsTrim dt
      if !isValidTime dt then Except.error "Invalid due time value."
      else Except.ok { d with dueTime := some dt }
    | none => Except.ok d
  let d : PatchData := match body.priority with
    | some p => { d with priority := some p }
    | none => d
  return d

/-- `Object.keys(data).length === 0`. -/
def patchDataEmpty (d : PatchData) : Bool :=
  d.completed == none && d.title == none && d.description == none &&
  d.dueDate == none && d.dueTime == none && d.priority == none

def applyPatchData (d : PatchData) (t : DbTask) : DbTask :=
  { t with
    completed := d.completed.getD t.completed
    title := d.title.getD t.title
    description := d.description.getD t.description
    dueDate := d.dueDate.getD t.dueDate
    dueTime := d.dueTime.getD t.dueTime
    priority := d.priority.getD t.priority }

/-- The route handler of `PATCH /api/tasks/[id]` for an authenticated `uid`:
ownership check first (404), then field validation, then
`prisma.task.update({ where: { id: taskId }, data })`. -/
def apiTaskPatch (uid : String) (taskId : Int) (body : TaskChanges)
    (s : ServerState) : NetResp × ServerState :=
  match findFirstTask s taskId uid with
  | none => (.notFound "Task not found.", s)
  | some existing =>
    match buildPatchData body with
    | .error msg => (.badRequest msg, s)
    | .ok d =>
      if patchDataEmpty d then (.badRequest "No valid fields provided.", s)
      else
        let newTasks :=
          s.tasks.map (fun t => if t.id == taskId then applyPatchData d t else t)
        (.okTask (applyPatchData d existing), { s with tasks := newTasks })

/-- The route handler of `DELETE /api/tasks/[id]` for an authenticated `uid`. -/
def apiTaskDelete (uid : String) (taskId : Int) (s : ServerState) :
    NetResp × ServerState :=
  match findFirstTask s taskId uid with
  | none => (.notFound "Task not found.", s)
  | some _ =>
    (.okDelete, { s with tasks := s.tasks.filter (fun t => !(t.id == taskId)) })

/-- PATCH route including the session guard. -/
def apiTaskPatchRoute (session : Option String) (taskId : Int)
    (body : TaskChanges) (s : ServerState) : NetResp × ServerState :=
  match session with
  | none => (.unauthorized "Unauthorized", s)
  | some uid => apiTaskPatch uid taskId body s

/-- DELETE route including the session guard. -/
def apiTaskDeleteRoute (session : Option String) (taskId : Int)
    (s : ServerState) : NetResp × ServerState :=
  match session with
  | none => (.unauthorized "Unauthorized", s)
  | some uid => apiTaskDelete uid taskId s

/-- Stable insertion step for the `orderBy` of `GET /api/tasks`
(dueDate asc, dueTime asc; `createdAt asc` = insertion order, preserved by
stability). -/
def insertByDue (t : DbTask) : List DbTask → List DbTask
  | [] => [t]
  | u :: us =>
    if t.dueDate < u.dueDate ||
        (t.dueDate == u.dueDate &&
          (t.dueTime < u.dueTime || t.dueTime == u.dueTime)) then
      t :: u :: us
    else
      u :: insertByDue t us

def sortByDue : List DbTask → List DbTask
  | [] => []
  | t :: ts => insertByDue t (sortByDue ts)

/-- The route handler of `GET /api/tasks` for an authenticated `uid`. -/
def apiTasksGet (uid : String) (s : ServerState) : NetResp × ServerState :=
  (.okList (sortByDue (s.tasks.filter (fun t => t.userId == uid))), s)

/-- Dispatch of one request to its route handler (authenticated session). -/
def serverHandle (uid : String) (req : NetReq) (s : ServerState) :
    NetResp × ServerState :=
  match req with
  | .createTask body => apiTasksPost uid body s
  | .patchTask id body => apiTaskPatch uid id body s
  | .deleteTask id => apiTaskDelete uid id s
  | .listTasks => apiTasksGet uid s

/-! ## Client state and the flush of the pending-operation queue -/

inductive WorkspaceMode
  | account
  | guest
deriving DecidableEq

/-- The `useSession().status` values. -/
inductive AuthStatus
  | authenticated
  | unauthenticated
  | loading
deriving DecidableEq

/-- The client state touched by `flushPendingAccountOps`: the routing flags,
the in-memory task list, the Local Task Cache
(`taskflow_account_tasks:<account>`) and the persisted queue
(`taskflow_account_pending_ops:<account>`). -/
structure ClientState where
  workspaceMode : WorkspaceMode
  status : AuthStatus
  isOffline : Bool
  tasks : List Task
  cachedTasks : List Task
  pendingOps : List PendingAccountOperation
deriving DecidableEq

/-- The in-memory `Map<number, number>` from placeholder ids to
server-assigned ids.  `mapSet` shadows older entries, matching `Map.set`
overwrite semantics under first-match lookup. -/
abbrev TempIdMap : Type := List (Int × Int)

def mapGet (m : TempIdMap) (k : Int) : Option Int :=
  (List.find? (fun p => p.1 == k) m).map (fun p => p.2)

def mapSet (m : TempIdMap) (k v : Int) : TempIdMap :=
  ((k, v) :: m : List (Int × Int))

/-- State threaded through one flush: the server, the temp-id map, the count
of fetches issued so far, and the requests issued so far (in order). -/
structure FlushRunState where
  server : ServerState
  tempIdMap : TempIdMap
  reqIdx : Nat
  trace : List NetReq
deriving DecidableEq

/-- The body the flush builds for a queued `create` (`op.task` fields). -/
def createBodyOfTask (t : Task) : CreateBody :=
  { title := t.title, description := t.description, dueDate := t.dueDate,
    dueTime := t.dueTime, priority := t.priority }

/-- One `fetch`.  `netOk i` says whether the i-th fetch of this flush reaches
the server and returns (a `false` models a thrown network error: the request
never reaches the server). -/
def sendReq (uid : String) (netOk : Nat → Bool) (req : NetReq)
    (st : FlushRunState) : Option NetResp × FlushRunState :=
  if netOk st.reqIdx then
    let rs := serverHandle uid req st.server
    (some rs.1,
      { st with server := rs.2, reqIdx := st.reqIdx + 1,
                trace := st.trace ++ [req] })
  else
    (none, { st with reqIdx := st.reqIdx + 1, trace := st.trace ++ [req] })

/-- One iteration of the `for (const op of ops)` loop.  `Except.error`
models the `throw` that aborts the whole flush. -/
def flushStep (uid : String) (netOk : Nat → Bool)
    (op : PendingAccountOperation) (st : FlushRunState) :
    Except FlushRunState FlushRunState :=
  match op with
  | .create task tempId =>
    let r := sendReq uid netOk (.createTask (createBodyOfTask task)) st
    match r.1 with
    | none => .error r.2
    | some resp =>
      if !respOk resp then .error r.2
      else
        match resp with
        | .created t =>
          .ok { r.2 with tempIdMap := mapSet r.2.tempIdMap tempId t.id }
        | _ => .ok r.2
  | .update id changes =>
    let resolvedId := (mapGet st.tempIdMap id).getD id
    if resolvedId < 0 then .ok st
    else
      let r := sendReq uid netOk (.patchTask resolvedId changes) st
      match r.1 with
      | none => .error r.2
      | some resp => if !respOk resp then .error r.2 else .ok r.2
  | .delete id =>
    let resolvedId := (mapGet st.tempIdMap id).getD id
    if resolvedId < 0 then .ok st
    else
      let r := sendReq uid netOk (.deleteTask resolvedId) st
      match r.1 with
      | none => .error r.2
      | some resp => if !respOk resp then .error r.2 else .ok r.2

/-- The replay loop over the queue, aborting on first failure. -/
def flushOps (uid : String) (netOk : Nat → Bool) :
    List PendingAccountOperation → FlushRunState →
    Except FlushRunState FlushRunState
  | [], st => .ok st
  | op :: rest, st =>
    match flushStep uid netOk op st with
    | .ok st' => flushOps uid netOk rest st'
    | .error st' => .error st'

def clientTaskOfDb (t : DbTask) : Task :=
  { id := t.id, title := t.title, description := t.description,
    dueDate := t.dueDate, dueTime := t.dueTime, completed := t.completed,
    priority := t.priority }

/-- Outcome of one call to `flushPendingAccountOps`.  `flushOk` records
whether the replay loop ran to completion (no abort); `tempIdMap` exposes the
final placeholder-to-server-id map. -/
structure FlushResult where
  client : ClientState
  server : ServerState
  trace : List NetReq
  flushOk : Bool
  tempIdMap : TempIdMap
deriving DecidableEq

/-- The embedding of `flushPendingAccountOps`: guard on mode, auth status and
connectivity; read the queue; replay it in order; on full success clear the
persisted queue (`writePendingAccountOps([])`) and then refresh the
in-memory list and the Local Task Cache from `GET /api/tasks`; on any
failure return with nothing written. -/
def flushPendingAccountOps (uid : String) (netOk : Nat → Bool)
    (c : ClientState) (s : ServerState) : FlushResult :=
  if !(c.workspaceMode == .account) || !(c.status == .authenticated) ||
      c.isOffline then
    { client := c, server := s, trace := [], flushOk := true, tempIdMap := [] }
  else
    let ops := c.pendingOps
    if ops.isEmpty then
      { client := c, server := s, trace := [], flushOk := true, tempIdMap := [] }
    else
      match flushOps uid netOk ops
          { server := s, tempIdMap := [], reqIdx := 0, trace := [] } with
      | .error st =>
        { client := c, server := st.server, trace := st.trace,
          flushOk := false, tempIdMap := st.tempIdMap }
      | .ok st =>
        let c1 := { c with pendingOps := [] }
        let r := sendReq uid netOk .listTasks st
        match r.1 with
        | some (.okList fresh) =>
          let freshTasks := fresh.map clientTaskOfDb
          { client := { c1 with tasks := freshTasks, cachedTasks := freshTasks },
            server := r.2.server, trace := r.2.trace, flushOk := true,
            tempIdMap := r.2.tempIdMap }
        | _ =>
          { client := c1, server := r.2.server, trace := r.2.trace,
            flushOk := true, tempIdMap := r.2.tempIdMap }

/-! ## User mutations: offline enqueue versus direct online application -/

/-- The data the user supplies for a new task.  `description` holds the
already-cleaned value (`description.trim() || null`). -/
structure CreateData where
  title : String
  description : Option String
  dueDate : String
  dueTime : String
  priority : TaskPriority
deriving DecidableEq

/-- How a user mutation addresses a task: by the placeholder id of an
offline-created task, or by a server id. -/
inductive TaskRef
  | temp (tempId : Int)
  | srv (id : Int)
deriving DecidableEq

/-- A user-level task mutation, in the order the user performed it. -/
inductive UserMutation
  | create (d : CreateData) (tempId : Int)
  | update (r : TaskRef) (changes : TaskChanges)
  | delete (r : TaskRef)
deriving DecidableEq

def TaskRef.rawId : TaskRef → Int
  | .temp t => t
  | .srv i => i

/-- The optimistic task built on the offline create path of `handleAddTask`
(`id: -Date.now(), completed: false`). -/
def offlineCreatedTask (d : CreateData) (tempId : Int) : Task :=
  { id := tempId, title := d.title, description := d.description,
    dueDate := d.dueDate, dueTime := d.dueTime, completed := false,
    priority := d.priority }

/-- What `pushPendingAccountOp` records for each mutation performed while
offline: the queue entry carries the placeholder task and its tempId, or the
identifier the task had in the UI at that moment. -/
def enqueueMutation : UserMutation → PendingAccountOperation
  | .create d tempId => .create (offlineCreatedTask d tempId) tempId
  | .update r ch => .update r.rawId ch
  | .delete r => .delete r.rawId

def enqueueMutations (ms : List UserMutation) : List PendingAccountOperation :=
  ms.map enqueueMutation

/-- The body the online create path of `handleAddTask` sends
(`description: description.trim() || ""`). -/
def onlineCreateBody (d : CreateData) : CreateBody :=
  { title := d.title, description := some (d.description.getD ""),
    dueDate := d.dueDate, dueTime := d.dueTime, priority := d.priority }

/-- Online, a reference to an offline-created task means the server id the
client learned when that create returned. -/
def resolveRef (m : TempIdMap) : TaskRef → Int
  | .temp t => (mapGet m t).getD t
  | .srv i => i

/-- Modelled from the spec: applying the same sequence of mutations directly
online, in order — each mutation is sent to the server immediately and the
client addresses later mutations with the server ids it has learned.  Any
failed call fails the whole run. -/
def applyMutationsOnline (uid : String) :
    List UserMutation → ServerState → TempIdMap →
    Except Unit (ServerState × TempIdMap)
  | [], s, m => .ok (s, m)
  | .create d tempId :: rest, s, m =>
    match apiTasksPost uid (onlineCreateBody d) s with
    | (.created t, s') => applyMutationsOnline uid rest s' (mapSet m tempId t.id)
    | _ => .error ()
  | .update r ch :: rest, s, m =>
    let rs := apiTaskPatch uid (resolveRef m r) ch s
    if respOk rs.1 then applyMutationsOnline uid rest rs.2 m else .error ()
  | .delete r :: rest, s, m =>
    let rs := apiTaskDelete uid (resolveRef m r) s
    if respOk rs.1 then applyMutationsOnline uid rest rs.2 m else .error ()

/-- Which placeholder references make sense given the set `known` of
placeholder ids created so far: a `temp` reference must name an earlier
offline create, and a `srv` reference is a server-assigned (non-negative)
id. -/
def wfRef (known : List Int) : TaskRef → Bool
  | .temp t => known.contains t
  | .srv i => decide (0 ≤ i)

/-- Well-formed user sequences: offline creates use negative placeholder
ids, and every reference points at an earlier create or at a server id. -/
def wfMutations (known : List Int) : List UserMutation → Bool
  | [] => true
  | .create _ tempId :: rest =>
    decide (tempId < 0) && wfMutations (tempId :: known) rest
  | .update r _ :: rest => wfRef known r && wfMutations known rest
  | .delete r :: rest => wfRef known r && wfMutations known rest

/-! ## Push dispatcher (`POST /api/cron/notifications`) -/

/-- A row of the `PushSubscription` table. -/
structure PushSubscriptionRec where
  id : String
  endpoint : String
  p256dh : String
  auth : String
  userId : String
deriving DecidableEq

/-- A row of the `Task` table as the cron route reads it. -/
structure CronTask where
  id : Int
  title : String
  dueDate : String
  dueTime : String
  completed : Bool
  userId : String
deriving DecidableEq

/-- A row of the `NotificationLog` table; the four fields form a unique
key. -/
structure NotificationLogEntry where
  taskId : Int
  pushSubscriptionId : String
  dueDate : String
  dueTime : String
deriving DecidableEq

structure PushDb where
  tasks : List CronTask
  subs : List PushSubscriptionRec
  log : List NotificationLogEntry
deriving DecidableEq

/-- Outcome of one `sendWebPush` call: success, or an error optionally
carrying an HTTP status code. -/
inductive DeliverResult
  | ok
  | err (statusCode : Option Int)
deriving DecidableEq

def CRON_GRACE_MS : Int := 10 * 60 * 1000

/-- A permanently-invalid endpoint: `statusCode === 404 || statusCode ===
410`. -/
def deadStatus (r : DeliverResult) : Bool :=
  match r with
  | .ok => false
  | .err code => code == some 404 || code == some 410

/-- The `findMany` of the cron route: incomplete tasks of users having at
least one push subscription. -/
def cronSelectedTasks (db : PushDb) : List CronTask :=
  db.tasks.filter
    (fun t => !t.completed && db.subs.any (fun sb => sb.userId == t.userId))

/-- The `include: { user: { include: { pushSubscriptions } } }` snapshot. -/
def subsOfUser (db : PushDb) (u : String) : List PushSubscriptionRec :=
  db.subs.filter (fun sb => sb.userId == u)

structure DispatchState where
  db : PushDb
  sent : Nat
  removedSubscriptions : Nat
  attempts : List String
deriving DecidableEq

def logEntryFor (task : CronTask) (sb : PushSubscriptionRec) :
    NotificationLogEntry :=
  { taskId := task.id, pushSubscriptionId := sb.id,
    dueDate := task.dueDate, dueTime := task.dueTime }

/-- The body of the inner `for (const subscription of task.user
.pushSubscriptions)` loop: check the Notification Log (live table), attempt
delivery, log on success, delete the subscription on a 404/410 failure,
leave everything for retry on any other failure.  `attempts` records each
`sendWebPush` invocation.  `prisma.pushSubscription.delete({ where: { id } })`
removes the row with that primary key. -/
def dispatchSub (deliver : PushSubscriptionRec → DeliverResult)
    (task : CronTask) (sb : PushSubscriptionRec) (st : DispatchState) :
    DispatchState :=
  let entry := logEntryFor task sb
  if st.db.log.contains entry then st
  else
    let st := { st with attempts := st.attempts ++ [sb.id] }
    match deliver sb with
    | .ok =>
      { st with db := { st.db with log := st.db.log ++ [entry] },
                sent := st.sent + 1 }
    | .err code =>
      if code == some 404 || code == some 410 then
        let newSubs := st.db.subs.filter (fun x => !(x.id == sb.id))
        { st with db := { st.db with subs := newSubs },
                  removedSubscriptions := st.removedSubscriptions + 1 }
      else st

/-- The body of the outer task loop: compute the due instant from the task's
date and time (`parseDue` embeds `new Date(dueDate + "T" + dueTime +
":00").getTime()`, `none` for NaN), skip future or stale tasks, and walk the
snapshot of the owner's subscriptions. -/
def dispatchTask (parseDue : String → String → Option Int)
    (deliver : PushSubscriptionRec → DeliverResult) (now : Int)
    (snapshot : List PushSubscriptionRec) (task : CronTask)
    (st : DispatchState) : DispatchState :=
  match parseDue task.dueDate task.dueTime with
  | none => st
  | some dueAt =>
    if dueAt > now ∨ dueAt < now - CRON_GRACE_MS then st
    else snapshot.foldl (fun st sb => dispatchSub deliver task sb st) st

/-- The dispatch core of the cron route, after its authorization and
push-configuration guards: select tasks with their subscription snapshots,
then process each. -/
def cronDispatch (parseDue : String → String → Option Int)
    (deliver : PushSubscriptionRec → DeliverResult) (db : PushDb)
    (now : Int) : DispatchState :=
  let selected := (cronSelectedTasks db).map (fun t => (t, subsOfUser db t.userId))
  selected.foldl
    (fun st ts => dispatchTask parseDue deliver now ts.2 ts.1 st)
    { db := db, sent := 0, removedSubscriptions := 0, attempts := [] }

/-! ## Reminder scheduler tick (client local notifications) -/

def modeString : WorkspaceMode → String
  | .account => "account"
  | .guest => "guest"

/-- The composite notified key
`mode + ":" + task.id + ":" + task.dueDate + ":" + task.dueTime`. -/
def notifyKeyOf (mode : WorkspaceMode) (t : Task) : String :=
  modeString mode ++ ":" ++ toString t.id ++ ":" ++ t.dueDate ++ ":" ++ t.dueTime

/-- Insertion into a JS `Set` kept as an insertion-ordered list. -/
def jsSetInsert (l : List String) (x : String) : List String :=
  if l.contains x then l else l ++ [x]

/-- `readNotifiedKeys`: the stored array turned into a `Set` (first
occurrence wins, insertion order kept). -/
def readNotifiedKeys (stored : List String) : List String :=
  stored.foldl jsSetInsert []

/-- The grace window of the local scheduler: 6 hours in milliseconds. -/
def TICK_GRACE_MS : Int := 6 * 60 * 60 * 1000

/-- The `for (const task of tasks)` loop of `tick`, returning the updated
notified set and the keys for which a Notification fired, in order.
`canNotify` models `typeof Notification !== "undefined" &&
Notification.permission === "granted"` together with the constructor not
throwing; when it is false the loop `continue`s without recording the key. -/
def tickLoop (parseDue : String → String → Option Int) (now : Int)
    (mode : WorkspaceMode) (canNotify : Bool) :
    List Task → List String → List String → List String × List String
  | [], set, fired => (set, fired)
  | t :: rest, set, fired =>
    if t.completed || !isValidTime t.dueTime then
      tickLoop parseDue now mode canNotify rest set fired
    else
      match parseDue t.dueDate t.dueTime with
      | none => tickLoop parseDue now mode canNotify rest set fired
      | some due =>
        let key := notifyKeyOf mode t
        if (due ≤ now ∧ now - due < TICK_GRACE_MS) ∧ set.contains key = false then
          if canNotify then
            tickLoop parseDue now mode canNotify rest (set ++ [key])
              (fired ++ [key])
          else
            tickLoop parseDue now mode canNotify rest set fired
        else
          tickLoop parseDue now mode canNotify rest set fired

structure TickResult where
  fired : List String
  persisted : List String
deriving DecidableEq

/-- The embedding of `tick`: read the notified set, scan the task list, then
persist `Array.from(notifiedSet).slice(-500)`. -/
def tick (parseDue : String → String → Option Int) (now : Int)
    (mode : WorkspaceMode) (canNotify : Bool) (tasks : List Task)
    (stored : List String) : TickResult :=
  let set0 := readNotifiedKeys stored
  let r := tickLoop parseDue now mode canNotify tasks set0 []
  { fired := r.2, persisted := r.1.drop (r.1.length - 500) }

/-! ## Concrete dispatcher data for the 09:00-due scenario -/

def pushSubOne : PushSubscriptionRec :=
  { id := "sub-1", endpoint := "https://push.example/1", p256dh := "p1",
    auth := "a1", userId := "user-1" }

def pushSubTwo : PushSubscriptionRec :=
  { id := "sub-2", endpoint := "https://push.example/2", p256dh := "p2",
    auth := "a2", userId := "user-1" }

def cronTaskAt9 : CronTask :=
  { id := 1, title := "Report", dueDate := "2026-02-03", dueTime := "09:00",
    completed := false, userId := "user-1" }

def cronDbAt9 : PushDb :=
  { tasks := [cronTaskAt9], subs := [pushSubOne, pushSubTwo], log := [] }

/-- Due-instant parse fixing 2026-02-03T09:00 at instant 0, so that
09:05, 09:07 and 09:25 are 300000, 420000 and 1500000 ms. -/
def parseDueAt9 (d t : String) : Option Int :=
  if d == "2026-02-03" && t == "09:00" then some 0 else none

def deliverAlwaysOk (_sb : PushSubscriptionRec) : DeliverResult := .ok

/-! ## Basic lemmas -/

theorem mapGet_mapSet (m : TempIdMap) (k v k' : Int) :
    mapGet (mapSet m k v) k' = if k' = k then some v else mapGet m k' := by
  unfold mapGet mapSet
  by_cases h : k' = k
  · subst h
    simp [List.find?]
  · rw [if_neg h]
    have : (k == k') = false := by
      simp [BEq.beq]
      omega
    simp [List.find?, this]

theorem readNotifiedKeys_mem (stored : List String) (x : String) :
    x ∈ readNotifiedKeys stored ↔ x ∈ stored := by
  unfold readNotifiedKeys
  suffices h : ∀ l acc, x ∈ List.foldl jsSetInsert acc l ↔ x ∈ acc ∨ x ∈ l by
    rw [h stored []]
    simp
  intro l
  induction l with
  | nil => simp
  | cons a as ih =>
    intro acc
    rw [List.foldl_cons, ih]
    unfold jsSetInsert
    by_cases hmem : acc.contains a
    · rw [if_pos hmem]
      have : a ∈ acc := by simpa using hmem
      constructor
      · rintro (h | h)
        · exact Or.inl h
        · exact Or.inr (List.mem_cons_of_mem _ h)
      · rintro (h | h)
        · exact Or.inl h
        · rcases List.mem_cons.mp h with h | h
          · exact Or.inl (h ▸ this)
          · exact Or.inr h
    · rw [if_neg hmem]
      simp
      tauto

/-! ## C6: flush is a no-op when unauthenticated, offline or empty -/

/-- C6.  Calling `flush()` when the account is not authenticated, or the
client is offline, or the pending queue is empty, issues no network calls
and changes neither the in-memory task list, the Local Task Cache, nor the
persisted queue (nor the server). -/
theorem c6_flush_noop_when_guarded (uid : String) (netOk : Nat → Bool)
    (c : ClientState) (s : ServerState)
    (h : c.workspaceMode ≠ .account ∨ c.status ≠ .authenticated ∨
      c.isOffline = true ∨ c.pendingOps = []) :
    flushPendingAccountOps uid netOk c s =
      { client := c, server := s, trace := [], flushOk := true,
        tempIdMap := [] } := by
  unfold flushPendingAccountOps
  rcases h with h | h | h | h
  · have hb : (c.workspaceMode == WorkspaceMode.account) = false := by
      simpa using h
    simp [hb]
  · have hb : (c.status == AuthStatus.authenticated) = false := by
      simpa using h
    simp [hb]
  · simp [h]
  · by_cases hg : (!(c.workspaceMode == WorkspaceMode.account) ||
        !(c.status == AuthStatus.authenticated) || c.isOffline) = true
    · simp [hg]
    · simp only [Bool.not_eq_true] at hg
      simp [hg, h]

/-- C6 witness: an offline client with a queued operation. -/
theorem c6_flush_noop_when_guarded_witness :
    flushPendingAccountOps "user-1" (fun _ => true)
      { workspaceMode := .account, status := .authenticated, isOffline := true,
        tasks := [], cachedTasks := [],
        pendingOps := [.delete 3] }
      { tasks := [], nextId := 1 } =
      { client := { workspaceMode := .account, status := .authenticated,
                    isOffline := true, tasks := [], cachedTasks := [],
                    pendingOps := [.delete 3] },
        server := { tasks := [], nextId := 1 }, trace := [], flushOk := true,
        tempIdMap := [] } :=
  c6_flush_noop_when_guarded "user-1" (fun _ => true) _ _
    (Or.inr (Or.inr (Or.inl rfl)))

/-! ## C10: PATCH and DELETE 404 on missing or foreign tasks -/

/-- C10.  For an authenticated session, updating or deleting a task id that
does not exist or belongs to a different user returns 404 "Task not found."
and leaves the task table unchanged. -/
theorem c10_patch_delete_foreign_404 (uid : String) (tid : Int)
    (body : TaskChanges) (s : ServerState)
    (h : ∀ t ∈ s.tasks, ¬(t.id = tid ∧ t.userId = uid)) :
    apiTaskPatchRoute (some uid) tid body s = (.notFound "Task not found.", s) ∧
    apiTaskDeleteRoute (some uid) tid s = (.notFound "Task not found.", s) := by
  have hfind : findFirstTask s tid uid = none := by
    unfold findFirstTask
    rw [List.find?_eq_none]
    intro t ht
    have := h t ht
    simp only [Bool.and_eq_true, beq_iff_eq]
    tauto
  constructor
  · simp [apiTaskPatchRoute, apiTaskPatch, hfind]
  · simp [apiTaskDeleteRoute, apiTaskDelete, hfind]

/-- C10 witness: user "alice" addressing a task owned by "bob". -/
theorem c10_patch_delete_foreign_404_witness :
    apiTaskPatchRoute (some "alice") 1 { completed := some true }
        { tasks := [{ id := 1, userId := "bob", title := "B",
                      description := none, dueDate := "2026-01-01",
                      dueTime := "09:00", completed := false,
                      priority := .LOW }], nextId := 2 } =
      (.notFound "Task not found.",
        { tasks := [{ id := 1, userId := "bob", title := "B",
                      description := none, dueDate := "2026-01-01",
                      dueTime := "09:00", completed := false,
                      priority := .LOW }], nextId := 2 }) ∧
    apiTaskDeleteRoute (some "alice") 1
        { tasks := [{ id := 1, userId := "bob", title := "B",
                      description := none, dueDate := "2026-01-01",
                      dueTime := "09:00", completed := false,
                      priority := .LOW }], nextId := 2 } =
      (.notFound "Task not found.",
        { tasks := [{ id := 1, userId := "bob", title := "B",
                      description := none, dueDate := "2026-01-01",
                      dueTime := "09:00", completed := false,
                      priority := .LOW }], nextId := 2 }) :=
  c10_patch_delete_foreign_404 "alice" 1 _ _ (by decide)

/-! ## C9: the persisted notified-key set is bounded by 500 -/

/-- C9.  After every tick the persisted notified-key set has at most 500
entries, and it is the suffix of the full insertion-ordered set: the entries
dropped past the cap are exactly the oldest (first-inserted) ones. -/
theorem c9_notified_set_bounded (parseDue : String → String → Option Int)
    (now : Int) (mode : WorkspaceMode) (canNotify : Bool) (tasks : List Task)
    (stored : List String) :
    (tick parseDue now mode canNotify tasks stored).persisted.length ≤ 500 ∧
    (tickLoop parseDue now mode canNotify tasks (readNotifiedKeys stored) []).1 =
      (tickLoop parseDue now mode canNotify tasks (readNotifiedKeys stored) []).1.take
        ((tickLoop parseDue now mode canNotify tasks (readNotifiedKeys stored) []).1.length - 500) ++
      (tick parseDue now mode canNotify tasks stored).persisted := by
  unfold tick
  constructor
  · rw [List.length_drop]
    omega
  · rw [List.take_append_drop]

/-! ## C3: the dispatcher 09:00 scenario -/

/-- C3.  For a task due at 09:00 (instant 0) with a 10-minute grace window:
a run at 09:05 sends and logs exactly one notification per subscription of
the owner (two subscriptions, two sends, two log entries); a second run at
09:07 attempts no delivery and sends nothing because the log entries are
present; a run at 09:25, past the window, attempts and sends nothing. -/
theorem c3_dispatcher_grace_and_dedup :
    (cronDispatch parseDueAt9 deliverAlwaysOk cronDbAt9 300000).sent = 2 ∧
    (cronDispatch parseDueAt9 deliverAlwaysOk cronDbAt9 300000).attempts =
      ["sub-1", "sub-2"] ∧
    (cronDispatch parseDueAt9 deliverAlwaysOk cronDbAt9 300000).db.log =
      [logEntryFor cronTaskAt9 pushSubOne, logEntryFor cronTaskAt9 pushSubTwo] ∧
    (cronDispatch parseDueAt9 deliverAlwaysOk
        (cronDispatch parseDueAt9 deliverAlwaysOk cronDbAt9 300000).db
        420000).sent = 0 ∧
    (cronDispatch parseDueAt9 deliverAlwaysOk
        (cronDispatch parseDueAt9 deliverAlwaysOk cronDbAt9 300000).db
        420000).attempts = [] ∧
    (cronDispatch parseDueAt9 deliverAlwaysOk
        (cronDispatch parseDueAt9 deliverAlwaysOk
          (cronDispatch parseDueAt9 deliverAlwaysOk cronDbAt9 300000).db
          420000).db 1500000).sent = 0 ∧
    (cronDispatch parseDueAt9 deliverAlwaysOk
        (cronDispatch parseDueAt9 deliverAlwaysOk
          (cronDispatch parseDueAt9 deliverAlwaysOk cronDbAt9 300000).db
          420000).db 1500000).attempts = [] := by
  decide

/-! ## Failure analysis of the flush (C4, C5) -/

/-- The replay loop aborts exactly where the failing operation is: an
aborted run over `ops` is the same aborted run over some prefix of `ops`
(operations past the failure are never attempted). -/
theorem flushOps_error_prefix (uid : String) (netOk : Nat → Bool) :
    ∀ (ops : List PendingAccountOperation) (st st' : FlushRunState),
    flushOps uid netOk ops st = .error st' →
    ∃ k ≤ ops.length, flushOps uid netOk (ops.take k) st = .error st' := by
  intro ops
  induction ops with
  | nil =>
    intro st st' h
    simp [flushOps] at h
  | cons op rest ih =>
    intro st st' h
    rw [flushOps] at h
    cases hstep : flushStep uid netOk op st with
    | error st1 =>
      rw [hstep] at h
      refine ⟨1, Nat.succ_le_succ (Nat.zero_le _), ?_⟩
      show flushOps uid netOk [op] st = Except.error st'
      rw [flushOps, hstep]
      exact h
    | ok st1 =>
      rw [hstep] at h
      obtain ⟨k, hk, hrun⟩ := ih st1 st' h
      refine ⟨k + 1, Nat.succ_le_succ hk, ?_⟩
      show flushOps uid netOk (op :: rest.take k) st = Except.error st'
      rw [flushOps, hstep]
      exact hrun

/-- A failed flush went through the guards, aborted somewhere in the replay
loop, and returned that loop state with the client untouched. -/
theorem flush_fail_spec (uid : String) (netOk : Nat → Bool) (c : ClientState)
    (s : ServerState)
    (hfail : (flushPendingAccountOps uid netOk c s).flushOk = false) :
    ∃ st : FlushRunState,
      flushOps uid netOk c.pendingOps
        { server := s, tempIdMap := [], reqIdx := 0, trace := [] } =
        .error st ∧
      flushPendingAccountOps uid netOk c s =
        { client := c, server := st.server, trace := st.trace,
          flushOk := false, tempIdMap := st.tempIdMap } := by
  by_cases hg : (!(c.workspaceMode == WorkspaceMode.account) ||
      !(c.status == AuthStatus.authenticated) || c.isOffline) = true
  · rw [flushPendingAccountOps, if_pos hg] at hfail
    simp at hfail
  · by_cases he : c.pendingOps.isEmpty = true
    · rw [flushPendingAccountOps, if_neg hg] at hfail
      simp only [he, if_true] at hfail
      simp at hfail
    · cases hrun : flushOps uid netOk c.pendingOps
          { server := s, tempIdMap := [], reqIdx := 0, trace := [] } with
      | error st =>
        refine ⟨st, rfl, ?_⟩
        rw [flushPendingAccountOps, if_neg hg]
        simp [he, hrun]
      | ok st =>
        rw [flushPendingAccountOps, if_neg hg] at hfail
        simp only [he, if_false, hrun] at hfail
        rcases h1 : (sendReq uid netOk .listTasks st).1 with _ | resp
        · simp only [h1] at hfail
          simp at hfail
        · cases resp <;> simp only [h1] at hfail <;> simp at hfail

/-- C4.  If some operation's request fails mid-flush, the flush stops at
that operation (the run equals the aborted run over a prefix of the queue;
nothing after the failure is attempted), the persisted queue is left exactly
as it was — every operation retained — and the in-memory list and the Local
Task Cache are untouched, so the next trigger starts over from the top of
the same queue. -/
theorem c4_flush_failure_retains_queue (uid : String) (netOk : Nat → Bool)
    (c : ClientState) (s : ServerState)
    (hfail : (flushPendingAccountOps uid netOk c s).flushOk = false) :
    (flushPendingAccountOps uid netOk c s).client = c ∧
    ∃ k ≤ c.pendingOps.length, ∃ i : Nat,
      flushOps uid netOk (c.pendingOps.take k)
        { server := s, tempIdMap := [], reqIdx := 0, trace := [] } =
        .error { server := (flushPendingAccountOps uid netOk c s).server,
                 tempIdMap := (flushPendingAccountOps uid netOk c s).tempIdMap,
                 reqIdx := i,
                 trace := (flushPendingAccountOps uid netOk c s).trace } := by
  obtain ⟨st, hrun, heq⟩ := flush_fail_spec uid netOk c s hfail
  obtain ⟨k, hk, hpre⟩ := flushOps_error_prefix uid netOk _ _ _ hrun
  refine ⟨by rw [heq], k, hk, st.reqIdx, ?_⟩
  rw [heq]
  exact hpre

/-- C4 witness: a two-operation queue whose second request hits a network
failure; the aborted run equals the run over the first two operations and
the queue survives intact. -/
theorem c4_flush_failure_retains_queue_witness :
    (flushPendingAccountOps "user-1" (fun i => i == 0)
        { workspaceMode := .account, status := .authenticated,
          isOffline := false, tasks := [], cachedTasks := [],
          pendingOps :=
            [.create { id := -1, title := "A", description := none,
                       dueDate := "2026-01-05", dueTime := "09:00",
                       completed := false, priority := .MEDIUM } (-1),
             .update (-1) { completed := some true }] }
        { tasks := [], nextId := 1 }).client =
      { workspaceMode := .account, status := .authenticated,
        isOffline := false, tasks := [], cachedTasks := [],
        pendingOps :=
          [.create { id := -1, title := "A", description := none,
                     dueDate := "2026-01-05", dueTime := "09:00",
                     completed := false, priority := .MEDIUM } (-1),
           .update (-1) { completed := some true }] } ∧
    ∃ k ≤ ([(.create { id := -1, title := "A", description := none,
                       dueDate := "2026-01-05", dueTime := "09:00",
                       completed := false, priority := .MEDIUM } (-1) :
              PendingAccountOperation),
            .update (-1) { completed := some true }] :
            List PendingAccountOperation).length, ∃ i : Nat,
      flushOps "user-1" (fun i => i == 0)
        (([(.create { id := -1, title := "A", description := none,
                      dueDate := "2026-01-05", dueTime := "09:00",
                      completed := false, priority := .MEDIUM } (-1) :
             PendingAccountOperation),
           .update (-1) { completed := some true }] :
           List PendingAccountOperation).take k)
        { server := { tasks := [], nextId := 1 }, tempIdMap := [],
          reqIdx := 0, trace := [] } =
        .error { server := (flushPendingAccountOps "user-1" (fun i => i == 0)
                   { workspaceMode := .account, status := .authenticated,
                     isOffline := false, tasks := [], cachedTasks := [],
                     pendingOps :=
                       [.create { id := -1, title := "A", description := none,
                                  dueDate := "2026-01-05", dueTime := "09:00",
                                  completed := false, priority := .MEDIUM } (-1),
                        .update (-1) { completed := some true }] }
                   { tasks := [], nextId := 1 }).server,
                 tempIdMap := (flushPendingAccountOps "user-1" (fun i => i == 0)
                   { workspaceMode := .account, status := .authenticated,
                     isOffline := false, tasks := [], cachedTasks := [],
                     pendingOps :=
                       [.create { id := -1, title := "A", description := none,
                                  dueDate := "2026-01-05", dueTime := "09:00",
                                  completed := false, priority := .MEDIUM } (-1),
                        .update (-1) { completed := some true }] }
                   { tasks := [], nextId := 1 }).tempIdMap,
                 reqIdx := i,
                 trace := (flushPendingAccountOps "user-1" (fun i => i == 0)
                   { workspaceMode := .account, status := .authenticated,
                     isOffline := false, tasks := [], cachedTasks := [],
                     pendingOps :=
                       [.create { id := -1, title := "A", description := none,
                                  dueDate := "2026-01-05", dueTime := "09:00",
                                  completed := false, priority := .MEDIUM } (-1),
                        .update (-1) { completed := some true }] }
                   { tasks := [], nextId := 1 }).trace } :=
  c4_flush_failure_retains_queue "user-1" (fun i => i == 0) _ _ (by decide)

/-- C5 counterexample.  Queue = [create "Pay rent" (placeholder -1),
update -1]; the create's request succeeds (the server ends up holding the
task and the map holds the assigned id), the update's request then hits a
network failure.  Contrary to the claim, the succeeded create is NOT removed
from the persisted queue before the update is attempted: the whole queue
survives, and the next flush replays the create, duplicating the task on
the server. -/
theorem c5_counterexample :
    (flushPendingAccountOps "user-1" (fun i => i == 0)
        { workspaceMode := .account, status := .authenticated,
          isOffline := false, tasks := [], cachedTasks := [],
          pendingOps :=
            [.create { id := -1, title := "Pay rent", description := none,
                       dueDate := "2026-03-01", dueTime := "10:00",
                       completed := false, priority := .HIGH } (-1),
             .update (-1) { title := some "Pay rent now" }] }
        { tasks := [], nextId := 1 }).server.tasks.map (fun t => t.title) =
      ["Pay rent"] ∧
    (flushPendingAccountOps "user-1" (fun i => i == 0)
        { workspaceMode := .account, status := .authenticated,
          isOffline := false, tasks := [], cachedTasks := [],
          pendingOps :=
            [.create { id := -1, title := "Pay rent", description := none,
                       dueDate := "2026-03-01", dueTime := "10:00",
                       completed := false, priority := .HIGH } (-1),
             .update (-1) { title := some "Pay rent now" }] }
        { tasks := [], nextId := 1 }).tempIdMap = [(-1, 1)] ∧
    (flushPendingAccountOps "user-1" (fun i => i == 0)
        { workspaceMode := .account, status := .authenticated,
          isOffline := false, tasks := [], cachedTasks := [],
          pendingOps :=
            [.create { id := -1, title := "Pay rent", description := none,
                       dueDate := "2026-03-01", dueTime := "10:00",
                       completed := false, priority := .HIGH } (-1),
             .update (-1) { title := some "Pay rent now" }] }
        { tasks := [], nextId := 1 }).flushOk = false ∧
    (flushPendingAccountOps "user-1" (fun i => i == 0)
        { workspaceMode := .account, status := .authenticated,
          isOffline := false, tasks := [], cachedTasks := [],
          pendingOps :=
            [.create { id := -1, title := "Pay rent", description := none,
                       dueDate := "2026-03-01", dueTime := "10:00",
                       completed := false, priority := .HIGH } (-1),
             .update (-1) { title := some "Pay rent now" }] }
        { tasks := [], nextId := 1 }).client.pendingOps =
      [.create { id := -1, title := "Pay rent", description := none,
                 dueDate := "2026-03-01", dueTime := "10:00",
                 completed := false, priority := .HIGH } (-1),
       .update (-1) { title := some "Pay rent now" }] ∧
    (flushPendingAccountOps "user-1" (fun _ => true)
        (flushPendingAccountOps "user-1" (fun i => i == 0)
          { workspaceMode := .account, status := .authenticated,
            isOffline := false, tasks := [], cachedTasks := [],
            pendingOps :=
              [.create { id := -1, title := "Pay rent", description := none,
                         dueDate := "2026-03-01", dueTime := "10:00",
                         completed := false, priority := .HIGH } (-1),
               .update (-1) { title := some "Pay rent now" }] }
          { tasks := [], nextId := 1 }).client
        (flushPendingAccountOps "user-1" (fun i => i == 0)
          { workspaceMode := .account, status := .authenticated,
            isOffline := false, tasks := [], cachedTasks := [],
            pendingOps :=
              [.create { id := -1, title := "Pay rent", description := none,
                         dueDate := "2026-03-01", dueTime := "10:00",
                         completed := false, priority := .HIGH } (-1),
               .update (-1) { title := some "Pay rent now" }] }
          { tasks := [], nextId := 1 }).server).server.tasks.map
        (fun t => (t.id, t.title)) =
      [(1, "Pay rent"), (2, "Pay rent now")] := by
  decide

/-- A run of the replay loop that ends in success has consumed the whole
queue; the flush then clears the persisted queue before issuing the refresh
fetch, whose handler does not change the server state. -/
theorem flush_success_spec (uid : String) (netOk : Nat → Bool)
    (c : ClientState) (s : ServerState)
    (hg1 : c.workspaceMode = .account) (hg2 : c.status = .authenticated)
    (hg3 : c.isOffline = false) (hne : c.pendingOps ≠ [])
    (hok : (flushPendingAccountOps uid netOk c s).flushOk = true) :
    ∃ st : FlushRunState,
      flushOps uid netOk c.pendingOps
        { server := s, tempIdMap := [], reqIdx := 0, trace := [] } = .ok st ∧
      (flushPendingAccountOps uid netOk c s).server = st.server ∧
      (flushPendingAccountOps uid netOk c s).tempIdMap = st.tempIdMap ∧
      (flushPendingAccountOps uid netOk c s).client.pendingOps = [] ∧
      ∀ r ∈ st.trace, r ∈ (flushPendingAccountOps uid netOk c s).trace := by
  have hgb : (!(c.workspaceMode == WorkspaceMode.account) ||
      !(c.status == AuthStatus.authenticated) || c.isOffline) = false := by
    simp [hg1, hg2, hg3]
  have he : c.pendingOps.isEmpty = false := by
    simpa [List.isEmpty_iff] using hne
  rw [flushPendingAccountOps, hgb] at hok ⊢
  simp only [Bool.false_eq_true, if_false, he] at hok ⊢
  cases hrun : flushOps uid netOk c.pendingOps
      { server := s, tempIdMap := [], reqIdx := 0, trace := [] } with
  | error st =>
    rw [hrun] at hok
    exact Bool.noConfusion hok
  | ok st =>
    refine ⟨st, rfl, ?_⟩
    dsimp only
    by_cases hnet : netOk st.reqIdx = true
    · have hs : sendReq uid netOk .listTasks st =
          (some (.okList (sortByDue
              (st.server.tasks.filter (fun t => t.userId == uid)))),
            { st with reqIdx := st.reqIdx + 1,
                      trace := st.trace ++ [NetReq.listTasks] }) := by
        rw [sendReq, if_pos hnet]
        rfl
      rw [hs]
      refine ⟨rfl, rfl, rfl, ?_⟩
      intro r hr
      exact List.mem_append_left _ hr
    · have hs : sendReq uid netOk .listTasks st =
          (none, { st with reqIdx := st.reqIdx + 1,
                           trace := st.trace ++ [NetReq.listTasks] }) := by
        rw [sendReq, if_neg hnet]
      rw [hs]
      refine ⟨rfl, rfl, rfl, ?_⟩
      intro r hr
      exact List.mem_append_left _ hr

/-- C5 amended.  A succeeded `create` is not dequeued mid-flush: the
persisted queue is written only at the two ends of the replay — it is left
exactly as it was whenever any operation of the flush fails (so a create
whose success response was received stays queued, to be replayed by the
next flush), and it is cleared only once every operation succeeded. -/
theorem c5_queue_retained_until_full_success (uid : String)
    (netOk : Nat → Bool) (c : ClientState) (s : ServerState) :
    ((flushPendingAccountOps uid netOk c s).flushOk = false →
      (flushPendingAccountOps uid netOk c s).client.pendingOps =
        c.pendingOps) ∧
    ((flushPendingAccountOps uid netOk c s).flushOk = true →
      c.workspaceMode = .account → c.status = .authenticated →
      c.isOffline = false → c.pendingOps ≠ [] →
      (flushPendingAccountOps uid netOk c s).client.pendingOps = []) := by
  constructor
  · intro hfail
    obtain ⟨st, _, heq⟩ := flush_fail_spec uid netOk c s hfail
    rw [heq]
  · intro hok hg1 hg2 hg3 hne
    obtain ⟨st, _, _, _, hq, _⟩ :=
      flush_success_spec uid netOk c s hg1 hg2 hg3 hne hok
    exact hq

/-- C5 amended witness: the failing flush of the counterexample retains its
two-operation queue. -/
theorem c5_queue_retained_until_full_success_witness :
    (flushPendingAccountOps "user-1" (fun i => i == 0)
        { workspaceMode := .account, status := .authenticated,
          isOffline := false, tasks := [], cachedTasks := [],
          pendingOps :=
            [.create { id := -1, title := "Pay rent", description := none,
                       dueDate := "2026-03-01", dueTime := "10:00",
                       completed := false, priority := .HIGH } (-1),
             .update (-1) { title := some "Pay rent now" }] }
        { tasks := [], nextId := 1 }).client.pendingOps =
      [.create { id := -1, title := "Pay rent", description := none,
                 dueDate := "2026-03-01", dueTime := "10:00",
                 completed := false, priority := .HIGH } (-1),
       .update (-1) { title := some "Pay rent now" }] :=
  (c5_queue_retained_until_full_success "user-1" (fun i => i == 0) _ _).1
    (by decide)

/-! ## Inversion lemmas for one flush step -/

/-- `POST /api/tasks` either rejects with a 400 and leaves the store
untouched, or appends one task carrying the next id. -/
theorem apiTasksPost_spec (uid : String) (body : CreateBody)
    (s : ServerState) :
    (∃ msg, apiTasksPost uid body s = (.badRequest msg, s)) ∨
    (∃ dbt, apiTasksPost uid body s =
        (.created dbt, { tasks := s.tasks ++ [dbt], nextId := s.nextId + 1 }) ∧
      dbt.id = s.nextId) := by
  unfold apiTasksPost
  dsimp only
  repeat' split
  all_goals first
    | exact Or.inl ⟨_, rfl⟩
    | exact Or.inr ⟨_, rfl, rfl⟩

theorem apiTaskPatch_nextId (uid : String) (id : Int) (body : TaskChanges)
    (s : ServerState) : (apiTaskPatch uid id body s).2.nextId = s.nextId := by
  unfold apiTaskPatch
  rcases findFirstTask s id uid with _ | ex
  · rfl
  · rcases buildPatchData body with msg | d
    · rfl
    · by_cases hd : patchDataEmpty d = true
      · simp [hd]
      · simp [hd]

theorem apiTaskDelete_nextId (uid : String) (id : Int) (s : ServerState) :
    (apiTaskDelete uid id s).2.nextId = s.nextId := by
  unfold apiTaskDelete
  rcases findFirstTask s id uid with _ | ex
  · rfl
  · rfl

/-- Inversion of a successful `create` step: the transport worked, the route
created a task carrying the server's next id, and the step recorded its
placeholder mapping and its request. -/
theorem flushStep_create_ok (uid : String) (netOk : Nat → Bool) (t : Task)
    (tempId : Int) (st st1 : FlushRunState)
    (h : flushStep uid netOk (.create t tempId) st = .ok st1) :
    netOk st.reqIdx = true ∧
    ∃ dbt, apiTasksPost uid (createBodyOfTask t) st.server =
        (.created dbt,
          { tasks := st.server.tasks ++ [dbt], nextId := st.server.nextId + 1 }) ∧
      dbt.id = st.server.nextId ∧
      st1 = { server := { tasks := st.server.tasks ++ [dbt],
                          nextId := st.server.nextId + 1 },
              tempIdMap := mapSet st.tempIdMap tempId dbt.id,
              reqIdx := st.reqIdx + 1,
              trace := st.trace ++ [.createTask (createBodyOfTask t)] } := by
  unfold flushStep at h
  dsimp only at h
  by_cases hnet : netOk st.reqIdx = true
  · refine ⟨hnet, ?_⟩
    have hs : sendReq uid netOk (.createTask (createBodyOfTask t)) st =
        (some (apiTasksPost uid (createBodyOfTask t) st.server).1,
          { st with server := (apiTasksPost uid (createBodyOfTask t) st.server).2,
                    reqIdx := st.reqIdx + 1,
                    trace := st.trace ++ [.createTask (createBodyOfTask t)] }) := by
      rw [sendReq, if_pos hnet]
      rfl
    rw [hs] at h
    rcases apiTasksPost_spec uid (createBodyOfTask t) st.server with
      ⟨msg, hpost⟩ | ⟨dbt, hpost, hid⟩
    · rw [hpost] at h
      exact Except.noConfusion h
    · rw [hpost] at h
      refine ⟨dbt, hpost, hid, ?_⟩
      dsimp only [respOk] at h
      injection h with h1
      rw [← h1]
  · exfalso
    have hs : sendReq uid netOk (.createTask (createBodyOfTask t)) st =
        (none, { st with reqIdx := st.reqIdx + 1,
                         trace := st.trace ++ [.createTask (createBodyOfTask t)] }) := by
      rw [sendReq, if_neg hnet]
    rw [hs] at h
    exact Except.noConfusion h

/-- Inversion of a successful `update` step: either the resolved id is still
a placeholder and the step is a skip, or the transport worked, the PATCH
responded ok, and the step recorded its request. -/
theorem flushStep_update_ok (uid : String) (netOk : Nat → Bool) (id : Int)
    (ch : TaskChanges) (st st1 : FlushRunState)
    (h : flushStep uid netOk (.update id ch) st = .ok st1) :
    ((mapGet st.tempIdMap id).getD id < 0 ∧ st1 = st) ∨
    (¬((mapGet st.tempIdMap id).getD id < 0) ∧ netOk st.reqIdx = true ∧
      respOk (apiTaskPatch uid ((mapGet st.tempIdMap id).getD id) ch
        st.server).1 = true ∧
      st1 = { server := (apiTaskPatch uid ((mapGet st.tempIdMap id).getD id)
                  ch st.server).2,
              tempIdMap := st.tempIdMap,
              reqIdx := st.reqIdx + 1,
              trace := st.trace ++
                [.patchTask ((mapGet st.tempIdMap id).getD id) ch] }) := by
  unfold flushStep at h
  dsimp only at h
  by_cases hneg : (mapGet st.tempIdMap id).getD id < 0
  · rw [if_pos hneg] at h
    injection h with h1
    exact Or.inl ⟨hneg, h1.symm⟩
  · rw [if_neg hneg] at h
    by_cases hnet : netOk st.reqIdx = true
    · have hs : sendReq uid netOk
          (.patchTask ((mapGet st.tempIdMap id).getD id) ch) st =
          (some (apiTaskPatch uid ((mapGet st.tempIdMap id).getD id) ch
              st.server).1,
            { st with
                server := (apiTaskPatch uid ((mapGet st.tempIdMap id).getD id)
                  ch st.server).2,
                reqIdx := st.reqIdx + 1,
                trace := st.trace ++
                  [.patchTask ((mapGet st.tempIdMap id).getD id) ch] }) := by
        rw [sendReq, if_pos hnet]
        rfl
      rw [hs] at h
      dsimp only at h
      by_cases hresp : respOk (apiTaskPatch uid
          ((mapGet st.tempIdMap id).getD id) ch st.server).1 = true
      · rw [hresp] at h
        rw [if_neg (by simp)] at h
        injection h with h1
        exact Or.inr ⟨hneg, hnet, hresp, h1.symm⟩
      · rw [Bool.not_eq_true] at hresp
        rw [hresp] at h
        rw [if_pos (show (!false) = true from rfl)] at h
        exact Except.noConfusion h
    · have hs : sendReq uid netOk
          (.patchTask ((mapGet st.tempIdMap id).getD id) ch) st =
          (none, { st with
                     reqIdx := st.reqIdx + 1,
                     trace := st.trace ++
                       [.patchTask ((mapGet st.tempIdMap id).getD id) ch] }) := by
        rw [sendReq, if_neg hnet]
      rw [hs] at h
      exact Except.noConfusion h

/-- Inversion of a successful `delete` step, mirroring the update case. -/
theorem flushStep_delete_ok (uid : String) (netOk : Nat → Bool) (id : Int)
    (st st1 : FlushRunState)
    (h : flushStep uid netOk (.delete id) st = .ok st1) :
    ((mapGet st.tempIdMap id).getD id < 0 ∧ st1 = st) ∨
    (¬((mapGet st.tempIdMap id).getD id < 0) ∧ netOk st.reqIdx = true ∧
      respOk (apiTaskDelete uid ((mapGet st.tempIdMap id).getD id)
        st.server).1 = true ∧
      st1 = { server := (apiTaskDelete uid ((mapGet st.tempIdMap id).getD id)
                  st.server).2,
              tempIdMap := st.tempIdMap,
              reqIdx := st.reqIdx + 1,
              trace := st.trace ++
                [.deleteTask ((mapGet st.tempIdMap id).getD id)] }) := by
  unfold flushStep at h
  dsimp only at h
  by_cases hneg : (mapGet st.tempIdMap id).getD id < 0
  · rw [if_pos hneg] at h
    injection h with h1
    exact Or.inl ⟨hneg, h1.symm⟩
  · rw [if_neg hneg] at h
    by_cases hnet : netOk st.reqIdx = true
    · have hs : sendReq uid netOk
          (.deleteTask ((mapGet st.tempIdMap id).getD id)) st =
          (some (apiTaskDelete uid ((mapGet st.tempIdMap id).getD id)
              st.server).1,
            { st with
                server := (apiTaskDelete uid ((mapGet st.tempIdMap id).getD id)
                  st.server).2,
                reqIdx := st.reqIdx + 1,
                trace := st.trace ++
                  [.deleteTask ((mapGet st.tempIdMap id).getD id)] }) := by
        rw [sendReq, if_pos hnet]
        rfl
      rw [hs] at h
      dsimp only at h
      by_cases hresp : respOk (apiTaskDelete uid
          ((mapGet st.tempIdMap id).getD id) st.server).1 = true
      · rw [hresp] at h
        rw [if_neg (by simp)] at h
        injection h with h1
        exact Or.inr ⟨hneg, hnet, hresp, h1.symm⟩
      · rw [Bool.not_eq_true] at hresp
        rw [hresp] at h
        rw [if_pos (show (!false) = true from rfl)] at h
        exact Except.noConfusion h
    · have hs : sendReq uid netOk
          (.deleteTask ((mapGet st.tempIdMap id).getD id)) st =
          (none, { st with
                     reqIdx := st.reqIdx + 1,
                     trace := st.trace ++
                       [.deleteTask ((mapGet st.tempIdMap id).getD id)] }) := by
        rw [sendReq, if_neg hnet]
      rw [hs] at h
      exact Except.noConfusion h

/-! ## C2: placeholder resolution during a successful flush -/

theorem flushOps_append_ok (uid : String) (netOk : Nat → Bool) :
    ∀ (l1 l2 : List PendingAccountOperation) (st st' : FlushRunState),
    flushOps uid netOk (l1 ++ l2) st = .ok st' →
    ∃ stm, flushOps uid netOk l1 st = .ok stm ∧
      flushOps uid netOk l2 stm = .ok st' := by
  intro l1
  induction l1 with
  | nil => exact fun l2 st st' h => ⟨st, rfl, h⟩
  | cons op rest ih =>
    intro l2 st st' h
    rw [List.cons_append, flushOps] at h
    cases hstep : flushStep uid netOk op st with
    | error st1 =>
      rw [hstep] at h
      exact Except.noConfusion h
    | ok st1 =>
      rw [hstep] at h
      obtain ⟨stm, h1, h2⟩ := ih l2 st1 st' h
      refine ⟨stm, ?_, h2⟩
      rw [flushOps, hstep]
      exact h1

theorem flushStep_nextId_le (uid : String) (netOk : Nat → Bool)
    (op : PendingAccountOperation) (st st1 : FlushRunState)
    (h : flushStep uid netOk op st = .ok st1) :
    st.server.nextId ≤ st1.server.nextId := by
  cases op with
  | create t tempId =>
    obtain ⟨-, dbt, -, -, hst⟩ := flushStep_create_ok uid netOk t tempId st st1 h
    rw [hst]
    dsimp only
    omega
  | update id ch =>
    rcases flushStep_update_ok uid netOk id ch st st1 h with
      ⟨-, rfl⟩ | ⟨-, -, -, hst⟩
    · exact le_refl _
    · rw [hst]
      dsimp only
      rw [apiTaskPatch_nextId]
  | delete id =>
    rcases flushStep_delete_ok uid netOk id st st1 h with
      ⟨-, rfl⟩ | ⟨-, -, -, hst⟩
    · exact le_refl _
    · rw [hst]
      dsimp only
      rw [apiTaskDelete_nextId]

theorem flushOps_nextId_le (uid : String) (netOk : Nat → Bool) :
    ∀ (ops : List PendingAccountOperation) (st st' : FlushRunState),
    flushOps uid netOk ops st = .ok st' →
    st.server.nextId ≤ st'.server.nextId := by
  intro ops
  induction ops with
  | nil =>
    intro st st' h
    injection h with h1
    rw [h1]
  | cons op rest ih =>
    intro st st' h
    rw [flushOps] at h
    cases hstep : flushStep uid netOk op st with
    | error st1 =>
      rw [hstep] at h
      exact Except.noConfusion h
    | ok st1 =>
      rw [hstep] at h
      exact le_trans (flushStep_nextId_le uid netOk op st st1 hstep)
        (ih st1 st' h)

theorem flushStep_trace_mono (uid : String) (netOk : Nat → Bool)
    (op : PendingAccountOperation) (st st1 : FlushRunState)
    (h : flushStep uid netOk op st = .ok st1) :
    ∀ r ∈ st.trace, r ∈ st1.trace := by
  cases op with
  | create t tempId =>
    obtain ⟨-, dbt, -, -, hst⟩ := flushStep_create_ok uid netOk t tempId st st1 h
    rw [hst]
    exact fun r hr => List.mem_append_left _ hr
  | update id ch =>
    rcases flushStep_update_ok uid netOk id ch st st1 h with
      ⟨-, rfl⟩ | ⟨-, -, -, hst⟩
    · exact fun r hr => hr
    · rw [hst]
      exact fun r hr => List.mem_append_left _ hr
  | delete id =>
    rcases flushStep_delete_ok uid netOk id st st1 h with
      ⟨-, rfl⟩ | ⟨-, -, -, hst⟩
    · exact fun r hr => hr
    · rw [hst]
      exact fun r hr => List.mem_append_left _ hr

theorem flushOps_trace_mono (uid : String) (netOk : Nat → Bool) :
    ∀ (ops : List PendingAccountOperation) (st st' : FlushRunState),
    flushOps uid netOk ops st = .ok st' →
    ∀ r ∈ st.trace, r ∈ st'.trace := by
  intro ops
  induction ops with
  | nil =>
    intro st st' h
    injection h with h1
    rw [h1]
    exact fun r hr => hr
  | cons op rest ih =>
    intro st st' h
    rw [flushOps] at h
    cases hstep : flushStep uid netOk op st with
    | error st1 =>
      rw [hstep] at h
      exact Except.noConfusion h
    | ok st1 =>
      rw [hstep] at h
      exact fun r hr =>
        ih st1 st' h r (flushStep_trace_mono uid netOk op st st1 hstep r hr)

/-- A step by an operation that is not a `create` for placeholder `tid`
leaves the map entry of `tid` unchanged. -/
theorem flushStep_mapGet (uid : String) (netOk : Nat → Bool)
    (op : PendingAccountOperation) (st st1 : FlushRunState) (tid : Int)
    (h : flushStep uid netOk op st = .ok st1)
    (hop : ∀ t', op ≠ .create t' tid) :
    mapGet st1.tempIdMap tid = mapGet st.tempIdMap tid := by
  cases op with
  | create t tempId =>
    obtain ⟨-, dbt, -, -, hst⟩ := flushStep_create_ok uid netOk t tempId st st1 h
    rw [hst]
    dsimp only
    rw [mapGet_mapSet]
    rw [if_neg]
    intro he
    exact hop t (by rw [he])
  | update id ch =>
    rcases flushStep_update_ok uid netOk id ch st st1 h with
      ⟨-, rfl⟩ | ⟨-, -, -, hst⟩
    · rfl
    · rw [hst]
  | delete id =>
    rcases flushStep_delete_ok uid netOk id st st1 h with
      ⟨-, rfl⟩ | ⟨-, -, -, hst⟩
    · rfl
    · rw [hst]

/-- Once the map sends placeholder `tid` to server id `S ≥ 0`, and no later
`create` reuses `tid`, a successful run of the remaining queue keeps that
mapping and sends every `update`/`delete` that targets `tid` as a request
addressed to `S`. -/
theorem flushOps_targets (uid : String) (netOk : Nat → Bool) (tid S : Int)
    (hS : 0 ≤ S) :
    ∀ (ops : List PendingAccountOperation) (st st' : FlushRunState),
    flushOps uid netOk ops st = .ok st' →
    mapGet st.tempIdMap tid = some S →
    (∀ t', PendingAccountOperation.create t' tid ∉ ops) →
    mapGet st'.tempIdMap tid = some S ∧
    (∀ ch, PendingAccountOperation.update tid ch ∈ ops →
      NetReq.patchTask S ch ∈ st'.trace) ∧
    (PendingAccountOperation.delete tid ∈ ops →
      NetReq.deleteTask S ∈ st'.trace) := by
  intro ops
  induction ops with
  | nil =>
    intro st st' h hmap _
    injection h with h1
    rw [← h1]
    exact ⟨hmap, by simp, by simp⟩
  | cons op rest ih =>
    intro st st' h hmap hnc
    rw [flushOps] at h
    cases hstep : flushStep uid netOk op st with
    | error st1 =>
      rw [hstep] at h
      exact Except.noConfusion h
    | ok st1 =>
      rw [hstep] at h
      have hopne : ∀ t', op ≠ .create t' tid := by
        intro t' he
        exact hnc t' (by rw [← he]; exact List.mem_cons_self op rest)
      have hmap1 : mapGet st1.tempIdMap tid = some S := by
        rw [flushStep_mapGet uid netOk op st st1 tid hstep hopne]
        exact hmap
      have hnc1 : ∀ t', PendingAccountOperation.create t' tid ∉ rest :=
        fun t' hmem => hnc t' (List.mem_cons_of_mem op hmem)
      obtain ⟨ihmap, ihupd, ihdel⟩ := ih st1 st' h hmap1 hnc1
      refine ⟨ihmap, ?_, ?_⟩
      · intro ch hmem
        rcases List.mem_cons.mp hmem with he | hmem'
        · subst he
          rcases flushStep_update_ok uid netOk tid ch st st1 hstep with
            ⟨hneg, -⟩ | ⟨-, -, -, hst⟩
          · rw [hmap] at hneg
            dsimp only [Option.getD] at hneg
            omega
          · have hreq : NetReq.patchTask S ch ∈ st1.trace := by
              rw [hst]
              dsimp only
              rw [hmap]
              dsimp only [Option.getD]
              exact List.mem_append_right _ (List.mem_singleton_self _)
            exact flushOps_trace_mono uid netOk rest st1 st' h _ hreq
        · exact ihupd ch hmem'
      · intro hmem
        rcases List.mem_cons.mp hmem with he | hmem'
        · rcases flushStep_delete_ok uid netOk tid st st1 (he ▸ hstep) with
            ⟨hneg, -⟩ | ⟨-, -, -, hst⟩
          · rw [hmap] at hneg
            dsimp only [Option.getD] at hneg
            omega
          · have hreq : NetReq.deleteTask S ∈ st1.trace := by
              rw [hst]
              dsimp only
              rw [hmap]
              dsimp only [Option.getD]
              exact List.mem_append_right _ (List.mem_singleton_self _)
            exact flushOps_trace_mono uid netOk rest st1 st' h _ hreq
        · exact ihdel hmem'

/-- C2.  For a queue holding a `create` with placeholder id `tid` (negative)
followed by operations targeting `tid`, with no later `create` reusing
`tid`, a successful flush resolves every such `update`/`delete` to the one
server id `S` assigned by that create — the final placeholder map sends
`tid` to `S` and the flush's request log contains the corresponding PATCH
or DELETE addressed to `S` for each of them; none is skipped and none is
addressed to any other id. -/
theorem c2_placeholder_ops_target_created_task (uid : String)
    (netOk : Nat → Bool) (c : ClientState) (s : ServerState)
    (q1 q2 : List PendingAccountOperation) (tk : Task) (tid : Int)
    (hg1 : c.workspaceMode = .account) (hg2 : c.status = .authenticated)
    (hg3 : c.isOffline = false)
    (hq : c.pendingOps = q1 ++ .create tk tid :: q2)
    (hnocreate : ∀ t', PendingAccountOperation.create t' tid ∉ q2)
    (hnext : 0 < s.nextId)
    (hok : (flushPendingAccountOps uid netOk c s).flushOk = true) :
    ∃ S : Int, 0 < S ∧
      mapGet (flushPendingAccountOps uid netOk c s).tempIdMap tid = some S ∧
      (∀ ch, PendingAccountOperation.update tid ch ∈ q2 →
        NetReq.patchTask S ch ∈ (flushPendingAccountOps uid netOk c s).trace) ∧
      (PendingAccountOperation.delete tid ∈ q2 →
        NetReq.deleteTask S ∈ (flushPendingAccountOps uid netOk c s).trace) := by
  have hne : c.pendingOps ≠ [] := by
    rw [hq]
    exact List.append_ne_nil_of_right_ne_nil _ (List.cons_ne_nil _ _)
  obtain ⟨st, hrun, hserver, hmapEq, -, htr⟩ :=
    flush_success_spec uid netOk c s hg1 hg2 hg3 hne hok
  rw [hq] at hrun
  obtain ⟨stm, hq1, hrest⟩ := flushOps_append_ok uid netOk _ _ _ _ hrun
  rw [flushOps] at hrest
  cases hstep : flushStep uid netOk (.create tk tid) stm with
  | error st1 =>
    rw [hstep] at hrest
    exact Except.noConfusion hrest
  | ok stm1 =>
    rw [hstep] at hrest
    obtain ⟨-, dbt, -, hid, hstm1⟩ :=
      flushStep_create_ok uid netOk tk tid stm stm1 hstep
    have hSpos : 0 < dbt.id := by
      have := flushOps_nextId_le uid netOk q1 _ _ hq1
      dsimp only at this
      omega
    have hmap1 : mapGet stm1.tempIdMap tid = some dbt.id := by
      rw [hstm1]
      dsimp only
      rw [mapGet_mapSet, if_pos rfl]
    obtain ⟨hmapF, hupd, hdel⟩ := flushOps_targets uid netOk tid dbt.id
      (le_of_lt hSpos) q2 stm1 st hrest hmap1 hnocreate
    refine ⟨dbt.id, hSpos, ?_, ?_, ?_⟩
    · rw [hmapEq]
      exact hmapF
    · exact fun ch hmem => htr _ (hupd ch hmem)
    · exact fun hmem => htr _ (hdel hmem)

/-- C2 witness: queue = [create "W" (placeholder -7), update -7, delete -7]
with a fully working transport. -/
theorem c2_placeholder_ops_target_created_task_witness :
    ∃ S : Int, 0 < S ∧
      mapGet (flushPendingAccountOps "user-1" (fun _ => true)
        { workspaceMode := .account, status := .authenticated,
          isOffline := false, tasks := [], cachedTasks := [],
          pendingOps :=
            [.create { id := -7, title := "W", description := none,
                       dueDate := "2026-04-01", dueTime := "08:30",
                       completed := false, priority := .LOW } (-7),
             .update (-7) { completed := some true },
             .delete (-7)] }
        { tasks := [], nextId := 1 }).tempIdMap (-7) = some S ∧
      (∀ ch, PendingAccountOperation.update (-7) ch ∈
          ([.update (-7) { completed := some true }, .delete (-7)] :
            List PendingAccountOperation) →
        NetReq.patchTask S ch ∈ (flushPendingAccountOps "user-1" (fun _ => true)
          { workspaceMode := .account, status := .authenticated,
            isOffline := false, tasks := [], cachedTasks := [],
            pendingOps :=
              [.create { id := -7, title := "W", description := none,
                         dueDate := "2026-04-01", dueTime := "08:30",
                         completed := false, priority := .LOW } (-7),
               .update (-7) { completed := some true },
               .delete (-7)] }
          { tasks := [], nextId := 1 }).trace) ∧
      (PendingAccountOperation.delete (-7) ∈
          ([.update (-7) { completed := some true }, .delete (-7)] :
            List PendingAccountOperation) →
        NetReq.deleteTask S ∈ (flushPendingAccountOps "user-1" (fun _ => true)
          { workspaceMode := .account, status := .authenticated,
            isOffline := false, tasks := [], cachedTasks := [],
            pendingOps :=
              [.create { id := -7, title := "W", description := none,
                         dueDate := "2026-04-01", dueTime := "08:30",
                         completed := false, priority := .LOW } (-7),
               .update (-7) { completed := some true },
               .delete (-7)] }
          { tasks := [], nextId := 1 }).trace) :=
  c2_placeholder_ops_target_created_task "user-1" (fun _ => true) _ _
    [] [.update (-7) { completed := some true }, .delete (-7)]
    { id := -7, title := "W", description := none, dueDate := "2026-04-01",
      dueTime := "08:30", completed := false, priority := .LOW } (-7)
    rfl rfl rfl rfl (by intro t'; simp) (by decide) (by decide)

/-! ## C1: a successful flush refines direct online application -/

/-- When every key of the map is negative, a non-negative id is unmapped. -/
theorem mapGet_none_of_nonneg (m : TempIdMap) (i : Int)
    (hinv : ∀ p ∈ m, p.1 < 0 ∧ 0 < p.2) (hi : 0 ≤ i) :
    mapGet m i = none := by
  unfold mapGet
  cases hf : List.find? (fun p => p.1 == i) m with
  | none => rfl
  | some p =>
    have hmem := List.mem_of_find?_eq_some hf
    have hbeq := List.find?_some hf
    have : p.1 = i := by simpa using hbeq
    have := (hinv p hmem).1
    omega

/-- The server create route ignores the request's description field, so the
flush body (built from the optimistic offline task) and the online body act
identically. -/
theorem apiTasksPost_desc_irrelevant (uid : String) (d : CreateData)
    (tempId : Int) (s : ServerState) :
    apiTasksPost uid (createBodyOfTask (offlineCreatedTask d tempId)) s =
      apiTasksPost uid (onlineCreateBody d) s := rfl

/-- Simulation: a successful replay of the enqueued form of a well-formed
mutation sequence computes exactly the server state and id map of applying
the sequence directly online. -/
theorem flushOps_sim (uid : String) (netOk : Nat → Bool) :
    ∀ (ms : List UserMutation) (known : List Int) (st st' : FlushRunState),
    wfMutations known ms = true →
    (∀ p ∈ st.tempIdMap, p.1 < 0 ∧ 0 < p.2) →
    (∀ k ∈ known, ∃ v, mapGet st.tempIdMap k = some v ∧ 0 < v) →
    0 < st.server.nextId →
    flushOps uid netOk (enqueueMutations ms) st = .ok st' →
    applyMutationsOnline uid ms st.server st.tempIdMap =
      .ok (st'.server, st'.tempIdMap) := by
  intro ms
  induction ms with
  | nil =>
    intro known st st' _ _ _ _ h
    injection h with h1
    rw [h1]
    rfl
  | cons m rest ih =>
    intro known st st' hwf hinv hkn hnext h
    have hme : enqueueMutations (m :: rest) =
        enqueueMutation m :: enqueueMutations rest := rfl
    rw [hme, flushOps] at h
    cases hstep : flushStep uid netOk (enqueueMutation m) st with
    | error st1 =>
      rw [hstep] at h
      exact Except.noConfusion h
    | ok st1 =>
      rw [hstep] at h
      cases m with
      | create d tempId =>
        have hwf2 := hwf
        simp only [wfMutations, Bool.and_eq_true, decide_eq_true_eq] at hwf2
        obtain ⟨htid, hwfrest⟩ := hwf2
        obtain ⟨hnet, dbt, hpost, hid, hst1⟩ :=
          flushStep_create_ok uid netOk (offlineCreatedTask d tempId) tempId
            st st1 hstep
        show (match apiTasksPost uid (onlineCreateBody d) st.server with
          | (.created t, s') =>
            applyMutationsOnline uid rest s' (mapSet st.tempIdMap tempId t.id)
          | _ => .error ()) = .ok (st'.server, st'.tempIdMap)
        rw [← apiTasksPost_desc_irrelevant uid d tempId st.server, hpost]
        have hrec := ih (tempId :: known) st1 st' hwfrest ?_ ?_ ?_ h
        · rw [hst1] at hrec
          exact hrec
        · rw [hst1]
          dsimp only
          intro p hp
          rcases List.mem_cons.mp hp with he | hp'
          · rw [he]
            exact ⟨htid, by omega⟩
          · exact hinv p hp'
        · rw [hst1]
          dsimp only
          intro k hk
          by_cases hke : k = tempId
          · refine ⟨dbt.id, ?_, by omega⟩
            rw [mapGet_mapSet, if_pos hke]
          · rcases List.mem_cons.mp hk with he | hk'
            · exact absurd he hke
            · obtain ⟨v, hv, hvpos⟩ := hkn k hk'
              refine ⟨v, ?_, hvpos⟩
              rw [mapGet_mapSet, if_neg hke]
              exact hv
        · rw [hst1]
          dsimp only
          omega
      | update r ch =>
        have hwf2 := hwf
        simp only [wfMutations, Bool.and_eq_true] at hwf2
        obtain ⟨hwfr, hwfrest⟩ := hwf2
        have hres : resolveRef st.tempIdMap r =
            (mapGet st.tempIdMap r.rawId).getD r.rawId ∧
            0 ≤ (mapGet st.tempIdMap r.rawId).getD r.rawId := by
          cases r with
          | temp t =>
            have ht : t ∈ known := by
              have : known.contains t = true := hwfr
              simpa using this
            obtain ⟨v, hv, hvpos⟩ := hkn t ht
            constructor
            · rfl
            · show 0 ≤ (mapGet st.tempIdMap t).getD t
              rw [hv]
              dsimp only [Option.getD]
              omega
          | srv i =>
            have hi : 0 ≤ i := by
              have : decide (0 ≤ i) = true := hwfr
              simpa using this
            have hnone := mapGet_none_of_nonneg st.tempIdMap i hinv hi
            constructor
            · show i = (mapGet st.tempIdMap i).getD i
              rw [hnone]
              rfl
            · show 0 ≤ (mapGet st.tempIdMap i).getD i
              rw [hnone]
              exact hi
        rcases flushStep_update_ok uid netOk r.rawId ch st st1 hstep with
          ⟨hneg, -⟩ | ⟨-, hnet, hresp, hst1⟩
        · omega
        · show (if respOk (apiTaskPatch uid (resolveRef st.tempIdMap r) ch
              st.server).1 = true then
            applyMutationsOnline uid rest
              (apiTaskPatch uid (resolveRef st.tempIdMap r) ch st.server).2
              st.tempIdMap
            else .error ()) = .ok (st'.server, st'.tempIdMap)
          rw [hres.1, if_pos hresp]
          have hrec := ih known st1 st' hwfrest ?_ ?_ ?_ h
          · rw [hst1] at hrec
            exact hrec
          · rw [hst1]
            exact hinv
          · rw [hst1]
            exact hkn
          · rw [hst1]
            dsimp only
            rw [apiTaskPatch_nextId]
            exact hnext
      | delete r =>
        have hwf2 := hwf
        simp only [wfMutations, Bool.and_eq_true] at hwf2
        obtain ⟨hwfr, hwfrest⟩ := hwf2
        have hres : resolveRef st.tempIdMap r =
            (mapGet st.tempIdMap r.rawId).getD r.rawId ∧
            0 ≤ (mapGet st.tempIdMap r.rawId).getD r.rawId := by
          cases r with
          | temp t =>
            have ht : t ∈ known := by
              have : known.contains t = true := hwfr
              simpa using this
            obtain ⟨v, hv, hvpos⟩ := hkn t ht
            constructor
            · rfl
            · show 0 ≤ (mapGet st.tempIdMap t).getD t
              rw [hv]
              dsimp only [Option.getD]
              omega
          | srv i =>
            have hi : 0 ≤ i := by
              have : decide (0 ≤ i) = true := hwfr
              simpa using this
            have hnone := mapGet_none_of_nonneg st.tempIdMap i hinv hi
            constructor
            · show i = (mapGet st.tempIdMap i).getD i
              rw [hnone]
              rfl
            · show 0 ≤ (mapGet st.tempIdMap i).getD i
              rw [hnone]
              exact hi
        rcases flushStep_delete_ok uid netOk r.rawId st st1 hstep with
          ⟨hneg, -⟩ | ⟨-, hnet, hresp, hst1⟩
        · omega
        · show (if respOk (apiTaskDelete uid (resolveRef st.tempIdMap r)
              st.server).1 = true then
            applyMutationsOnline uid rest
              (apiTaskDelete uid (resolveRef st.tempIdMap r) st.server).2
              st.tempIdMap
            else .error ()) = .ok (st'.server, st'.tempIdMap)
          rw [hres.1, if_pos hresp]
          have hrec := ih known st1 st' hwfrest ?_ ?_ ?_ h
          · rw [hst1] at hrec
            exact hrec
          · rw [hst1]
            exact hinv
          · rw [hst1]
            exact hkn
          · rw [hst1]
            dsimp only
            rw [apiTaskDelete_nextId]
            exact hnext

/-- C1.  For every well-formed sequence of offline mutations enqueued in
user order, if the flush of that queue completes successfully then the
resulting server state (in particular its task list) is exactly the state
obtained by applying the same mutation sequence directly online in the same
order, and the placeholder map agrees as well. -/
theorem c1_flush_refines_online (uid : String) (netOk : Nat → Bool)
    (ms : List UserMutation) (c : ClientState) (s : ServerState)
    (hg1 : c.workspaceMode = .account) (hg2 : c.status = .authenticated)
    (hg3 : c.isOffline = false)
    (hq : c.pendingOps = enqueueMutations ms)
    (hwf : wfMutations [] ms = true)
    (hnext : 0 < s.nextId)
    (hok : (flushPendingAccountOps uid netOk c s).flushOk = true) :
    applyMutationsOnline uid ms s [] =
      .ok ((flushPendingAccountOps uid netOk c s).server,
           (flushPendingAccountOps uid netOk c s).tempIdMap) := by
  by_cases hms : c.pendingOps = []
  · have hmsnil : ms = [] := by
      rw [hq] at hms
      exact List.map_eq_nil_iff.mp hms
    have hgb : (!(c.workspaceMode == WorkspaceMode.account) ||
        !(c.status == AuthStatus.authenticated) || c.isOffline) = false := by
      simp [hg1, hg2, hg3]
    have hflush : flushPendingAccountOps uid netOk c s =
        { client := c, server := s, trace := [], flushOk := true,
          tempIdMap := [] } := by
      rw [flushPendingAccountOps, hgb]
      simp [hms]
    rw [hflush, hmsnil]
    rfl
  · obtain ⟨st, hrun, hserver, hmapEq, -, -⟩ :=
      flush_success_spec uid netOk c s hg1 hg2 hg3 hms hok
    rw [hq] at hrun
    have hsim := flushOps_sim uid netOk ms []
      { server := s, tempIdMap := [], reqIdx := 0, trace := [] } st hwf
      (by intro p hp; exact absurd hp (List.not_mem_nil p))
      (by intro k hk; exact absurd hk (List.not_mem_nil k))
      hnext hrun
    rw [hserver, hmapEq]
    exact hsim

/-- C1 witness: offline create (placeholder -1) followed by an update
addressing the placeholder, flushed with a working transport. -/
theorem c1_flush_refines_online_witness :
    applyMutationsOnline "user-1"
      [.create { title := "Trip", description := none,
                 dueDate := "2026-05-01", dueTime := "07:15",
                 priority := .MEDIUM } (-1),
       .update (.temp (-1)) { completed := some true }]
      { tasks := [], nextId := 1 } [] =
      .ok ((flushPendingAccountOps "user-1" (fun _ => true)
              { workspaceMode := .account, status := .authenticated,
                isOffline := false, tasks := [], cachedTasks := [],
                pendingOps := enqueueMutations
                  [.create { title := "Trip", description := none,
                             dueDate := "2026-05-01", dueTime := "07:15",
                             priority := .MEDIUM } (-1),
                   .update (.temp (-1)) { completed := some true }] }
              { tasks := [], nextId := 1 }).server,
           (flushPendingAccountOps "user-1" (fun _ => true)
              { workspaceMode := .account, status := .authenticated,
                isOffline := false, tasks := [], cachedTasks := [],
                pendingOps := enqueueMutations
                  [.create { title := "Trip", description := none,
                             dueDate := "2026-05-01", dueTime := "07:15",
                             priority := .MEDIUM } (-1),
                   .update (.temp (-1)) { completed := some true }] }
              { tasks := [], nextId := 1 }).tempIdMap) :=
  c1_flush_refines_online "user-1" (fun _ => true)
    [.create { title := "Trip", description := none,
               dueDate := "2026-05-01", dueTime := "07:15",
               priority := .MEDIUM } (-1),
     .update (.temp (-1)) { completed := some true }] _ _
    rfl rfl rfl rfl (by decide) (by decide) (by decide)

/-! ## C8: the local reminder tick fires once per due instant -/

/-- Unfolding equation for `tick`. -/
theorem tick_eq (parseDue : String → String → Option Int) (now : Int)
    (mode : WorkspaceMode) (canNotify : Bool) (tasks : List Task)
    (stored : List String) :
    tick parseDue now mode canNotify tasks stored =
      { fired := (tickLoop parseDue now mode canNotify tasks
          (readNotifiedKeys stored) []).2,
        persisted := (tickLoop parseDue now mode canNotify tasks
          (readNotifiedKeys stored) []).1.drop
            ((tickLoop parseDue now mode canNotify tasks
              (readNotifiedKeys stored) []).1.length - 500) } := rfl

/-- An incomplete task with a valid time, parseable due instant inside the
grace window and an unrecorded key fires: the key is appended to the set and
reported. -/
theorem tickLoop_single_fire (parseDue : String → String → Option Int)
    (now : Int) (mode : WorkspaceMode) (t : Task) (set fired : List String)
    (T : Int)
    (hc : t.completed = false) (hv : isValidTime t.dueTime = true)
    (hp : parseDue t.dueDate t.dueTime = some T)
    (hwin : T ≤ now ∧ now - T < TICK_GRACE_MS)
    (hmem : set.contains (notifyKeyOf mode t) = false) :
    tickLoop parseDue now mode true [t] set fired =
      (set ++ [notifyKeyOf mode t], fired ++ [notifyKeyOf mode t]) := by
  unfold tickLoop
  rw [hc, hv, hp]
  rw [if_neg (by simp)]
  dsimp only
  rw [if_pos ⟨hwin, hmem⟩]
  rfl

/-- A task whose key is already recorded (or out of window) adds nothing. -/
theorem tickLoop_single_skip (parseDue : String → String → Option Int)
    (now : Int) (mode : WorkspaceMode) (t : Task) (set fired : List String)
    (hmem : set.contains (notifyKeyOf mode t) = true) :
    tickLoop parseDue now mode true [t] set fired = (set, fired) := by
  unfold tickLoop
  by_cases h1 : (t.completed || !isValidTime t.dueTime) = true
  · rw [if_pos h1]
    rfl
  · rw [if_neg h1]
    cases hp : parseDue t.dueDate t.dueTime with
    | none => rfl
    | some T =>
      dsimp only
      rw [if_neg]
      · rfl
      · intro hcond
        rw [hmem] at hcond
        exact Bool.noConfusion hcond.2

/-- C8.  A task due at instant T, checked one minute later with permission
granted and no prior record, fires exactly one notification; checked again a
minute after, it fires none; after its due time is edited (a fresh notify
key), exactly one further notification fires at the new instant. -/
theorem c8_tick_fires_once_per_due_instant
    (parseDue : String → String → Option Int) (mode : WorkspaceMode)
    (t : Task) (stored : List String) (T : Int) (newTime : String) (T2 : Int)
    (hc : t.completed = false) (hv : isValidTime t.dueTime = true)
    (hp : parseDue t.dueDate t.dueTime = some T)
    (hstored : notifyKeyOf mode t ∉ stored)
    (hv2 : isValidTime newTime = true)
    (hp2 : parseDue t.dueDate newTime = some T2)
    (hkeyne : notifyKeyOf mode { t with dueTime := newTime } ≠
      notifyKeyOf mode t)
    (hstored2 : notifyKeyOf mode { t with dueTime := newTime } ∉ stored) :
    (tick parseDue (T + 60000) mode true [t] stored).fired =
      [notifyKeyOf mode t] ∧
    (tick parseDue (T + 120000) mode true [t]
        (tick parseDue (T + 60000) mode true [t] stored).persisted).fired =
      [] ∧
    (tick parseDue (T2 + 60000) mode true [{ t with dueTime := newTime }]
        (tick parseDue (T + 120000) mode true [t]
          (tick parseDue (T + 60000) mode true [t] stored).persisted).persisted).fired =
      [notifyKeyOf mode { t with dueTime := newTime }] := by
  have hgr : TICK_GRACE_MS = 21600000 := rfl
  have hcont0 : (readNotifiedKeys stored).contains (notifyKeyOf mode t) =
      false := by
    rw [Bool.eq_false_iff]
    intro hcon
    have hm : notifyKeyOf mode t ∈ readNotifiedKeys stored := by
      simpa using hcon
    exact hstored ((readNotifiedKeys_mem stored _).mp hm)
  have hloop1 := tickLoop_single_fire parseDue (T + 60000) mode t
    (readNotifiedKeys stored) [] T hc hv hp (by omega) hcont0
  have htick1 : tick parseDue (T + 60000) mode true [t] stored =
      { fired := [notifyKeyOf mode t],
        persisted := (readNotifiedKeys stored ++ [notifyKeyOf mode t]).drop
          ((readNotifiedKeys stored ++ [notifyKeyOf mode t]).length - 500) } := by
    rw [tick_eq parseDue (T + 60000), hloop1]
    rfl
  have hkey1 : notifyKeyOf mode t ∈
      (tick parseDue (T + 60000) mode true [t] stored).persisted := by
    rw [htick1]
    dsimp only
    rw [List.drop_append_of_le_length (by simp)]
    exact List.mem_append_right _ (List.mem_singleton_self _)
  have hp1sub : ∀ x ∈ (tick parseDue (T + 60000) mode true [t] stored).persisted,
      x ∈ stored ∨ x = notifyKeyOf mode t := by
    intro x hx
    rw [htick1] at hx
    dsimp only at hx
    have hx2 := List.mem_of_mem_drop hx
    rcases List.mem_append.mp hx2 with hx3 | hx3
    · exact Or.inl ((readNotifiedKeys_mem stored x).mp hx3)
    · exact Or.inr (by simpa using hx3)
  have hcont1 : (readNotifiedKeys
      (tick parseDue (T + 60000) mode true [t] stored).persisted).contains
      (notifyKeyOf mode t) = true := by
    have : notifyKeyOf mode t ∈ readNotifiedKeys
        (tick parseDue (T + 60000) mode true [t] stored).persisted :=
      (readNotifiedKeys_mem _ _).mpr hkey1
    simpa using this
  have hloop2 := tickLoop_single_skip parseDue (T + 120000) mode t
    (readNotifiedKeys
      (tick parseDue (T + 60000) mode true [t] stored).persisted) [] hcont1
  have htick2 : tick parseDue (T + 120000) mode true [t]
      (tick parseDue (T + 60000) mode true [t] stored).persisted =
      { fired := [],
        persisted := (readNotifiedKeys
            (tick parseDue (T + 60000) mode true [t] stored).persisted).drop
          ((readNotifiedKeys
            (tick parseDue (T + 60000) mode true [t] stored).persisted).length
            - 500) } := by
    rw [tick_eq parseDue (T + 120000), hloop2]
  have hp2sub : ∀ x ∈ (tick parseDue (T + 120000) mode true [t]
      (tick parseDue (T + 60000) mode true [t] stored).persisted).persisted,
      x ∈ stored ∨ x = notifyKeyOf mode t := by
    intro x hx
    rw [htick2] at hx
    dsimp only at hx
    have hx2 := List.mem_of_mem_drop hx
    have hx3 := (readNotifiedKeys_mem _ _).mp hx2
    exact hp1sub x hx3
  have hcont2 : (readNotifiedKeys
      (tick parseDue (T + 120000) mode true [t]
        (tick parseDue (T + 60000) mode true [t] stored).persisted).persisted).contains
      (notifyKeyOf mode { t with dueTime := newTime }) = false := by
    rw [Bool.eq_false_iff]
    intro hcon
    have hm : notifyKeyOf mode { t with dueTime := newTime } ∈
        readNotifiedKeys (tick parseDue (T + 120000) mode true [t]
          (tick parseDue (T + 60000) mode true [t] stored).persisted).persisted := by
      simpa using hcon
    have hm2 := (readNotifiedKeys_mem _ _).mp hm
    rcases hp2sub _ hm2 with hmem | heq
    · exact hstored2 hmem
    · exact hkeyne heq
  have hloop3 := tickLoop_single_fire parseDue (T2 + 60000) mode
    { t with dueTime := newTime }
    (readNotifiedKeys
      (tick parseDue (T + 120000) mode true [t]
        (tick parseDue (T + 60000) mode true [t] stored).persisted).persisted)
    [] T2 hc hv2 hp2 (by omega) hcont2
  refine ⟨by rw [htick1], by rw [htick2], ?_⟩
  rw [tick_eq parseDue (T2 + 60000), hloop3]
  rfl

/-- C8 witness: a guest task due at instant 0 ("09:00"), then edited to
"10:30" (instant 5400000), starting from an empty notified store. -/
theorem c8_tick_fires_once_per_due_instant_witness :
    (tick (fun _ tm => if tm == "09:00" then some 0
        else if tm == "10:30" then some 5400000 else none) (0 + 60000)
      .guest true
      [{ id := 4, title := "Walk", description := none,
         dueDate := "2026-06-01", dueTime := "09:00", completed := false,
         priority := .LOW }] []).fired =
      [notifyKeyOf .guest
        { id := 4, title := "Walk", description := none,
          dueDate := "2026-06-01", dueTime := "09:00", completed := false,
          priority := .LOW }] ∧
    (tick (fun _ tm => if tm == "09:00" then some 0
        else if tm == "10:30" then some 5400000 else none) (0 + 120000)
      .guest true
      [{ id := 4, title := "Walk", description := none,
         dueDate := "2026-06-01", dueTime := "09:00", completed := false,
         priority := .LOW }]
      (tick (fun _ tm => if tm == "09:00" then some 0
          else if tm == "10:30" then some 5400000 else none) (0 + 60000)
        .guest true
        [{ id := 4, title := "Walk", description := none,
           dueDate := "2026-06-01", dueTime := "09:00", completed := false,
           priority := .LOW }] []).persisted).fired = [] ∧
    (tick (fun _ tm => if tm == "09:00" then some 0
        else if tm == "10:30" then some 5400000 else none) (5400000 + 60000)
      .guest true
      [{ id := 4, title := "Walk", description := none,
         dueDate := "2026-06-01", dueTime := "10:30", completed := false,
         priority := .LOW }]
      (tick (fun _ tm => if tm == "09:00" then some 0
          else if tm == "10:30" then some 5400000 else none) (0 + 120000)
        .guest true
        [{ id := 4, title := "Walk", description := none,
           dueDate := "2026-06-01", dueTime := "09:00", completed := false,
           priority := .LOW }]
        (tick (fun _ tm => if tm == "09:00" then some 0
            else if tm == "10:30" then some 5400000 else none) (0 + 60000)
          .guest true
          [{ id := 4, title := "Walk", description := none,
             dueDate := "2026-06-01", dueTime := "09:00", completed := false,
             priority := .LOW }] []).persisted).persisted).fired =
      [notifyKeyOf .guest
        { id := 4, title := "Walk", description := none,
          dueDate := "2026-06-01", dueTime := "10:30", completed := false,
          priority := .LOW }] :=
  c8_tick_fires_once_per_due_instant
    (fun _ tm => if tm == "09:00" then some 0
      else if tm == "10:30" then some 5400000 else none) .guest
    { id := 4, title := "Walk", description := none,
      dueDate := "2026-06-01", dueTime := "09:00", completed := false,
      priority := .LOW } [] 0 "10:30" 5400000
    rfl (by decide) rfl (by simp) (by decide) rfl (by decide) (by simp)

/-! ## C7: subscription pruning and retry eligibility in the dispatcher -/

theorem dispatchSub_tasks (deliver : PushSubscriptionRec → DeliverResult)
    (task : CronTask) (sb : PushSubscriptionRec) (st : DispatchState) :
    (dispatchSub deliver task sb st).db.tasks = st.db.tasks := by
  unfold dispatchSub
  dsimp only
  repeat' split
  all_goals rfl

theorem dispatchSub_subs_mem (deliver : PushSubscriptionRec → DeliverResult)
    (task : CronTask) (sb : PushSubscriptionRec) (st : DispatchState)
    (y : PushSubscriptionRec)
    (hy : y ∈ (dispatchSub deliver task sb st).db.subs) :
    y ∈ st.db.subs := by
  unfold dispatchSub at hy
  dsimp only at hy
  revert hy
  repeat' split
  all_goals intro hy
  all_goals first
    | exact hy
    | exact List.mem_of_mem_filter hy

theorem dispatchSub_subs_sublist (deliver : PushSubscriptionRec → DeliverResult)
    (task : CronTask) (sb : PushSubscriptionRec) (st : DispatchState) :
    (dispatchSub deliver task sb st).db.subs.Sublist st.db.subs := by
  unfold dispatchSub
  dsimp only
  repeat' split
  all_goals first
    | exact List.Sublist.refl _
    | exact List.filter_sublist _

theorem dispatchSub_keep (deliver : PushSubscriptionRec → DeliverResult)
    (task : CronTask) (sb : PushSubscriptionRec) (st : DispatchState)
    (y : PushSubscriptionRec) (hy : y ∈ st.db.subs)
    (hcond : y.id = sb.id → deadStatus (deliver sb) = false) :
    y ∈ (dispatchSub deliver task sb st).db.subs := by
  unfold dispatchSub
  dsimp only
  split
  · exact hy
  · cases hdel : deliver sb with
    | ok => exact hy
    | err code =>
      dsimp only
      split
      · next hcode =>
        refine List.mem_filter.mpr ⟨hy, ?_⟩
        have hds : deadStatus (deliver sb) = true := by
          rw [hdel]
          unfold deadStatus
          exact hcode
        simp only [Bool.not_eq_true', beq_eq_false_iff_ne]
        intro hid
        have := hcond hid
        rw [this] at hds
        exact Bool.noConfusion hds
      · exact hy

theorem dispatchSub_log_mem (deliver : PushSubscriptionRec → DeliverResult)
    (task : CronTask) (sb : PushSubscriptionRec) (st : DispatchState)
    (e : NotificationLogEntry)
    (he : e ∈ (dispatchSub deliver task sb st).db.log) :
    e ∈ st.db.log ∨ (e = logEntryFor task sb ∧ deliver sb = .ok) := by
  unfold dispatchSub at he
  dsimp only at he
  revert he
  split
  · exact fun he => Or.inl he
  · cases hdel : deliver sb with
    | ok =>
      dsimp only
      intro he
      rcases List.mem_append.mp he with he1 | he1
      · exact Or.inl he1
      · exact Or.inr ⟨by simpa using he1, rfl⟩
    | err code =>
      dsimp only
      split
      · exact fun he => Or.inl he
      · exact fun he => Or.inl he

theorem dispatchSub_attempts_mono (deliver : PushSubscriptionRec → DeliverResult)
    (task : CronTask) (sb : PushSubscriptionRec) (st : DispatchState)
    (r : String) (hr : r ∈ st.attempts) :
    r ∈ (dispatchSub deliver task sb st).attempts := by
  unfold dispatchSub
  dsimp only
  repeat' split
  all_goals first
    | exact hr
    | exact List.mem_append_left _ hr

theorem dispatchSub_attempts_mem (deliver : PushSubscriptionRec → DeliverResult)
    (task : CronTask) (sb : PushSubscriptionRec) (st : DispatchState)
    (r : String) (hr : r ∈ (dispatchSub deliver task sb st).attempts) :
    r ∈ st.attempts ∨ r = sb.id := by
  unfold dispatchSub at hr
  dsimp only at hr
  revert hr
  repeat' split
  all_goals intro hr
  all_goals first
    | exact Or.inl hr
    | (rcases List.mem_append.mp hr with h1 | h1
       · exact Or.inl h1
       · exact Or.inr (by simpa using h1))

theorem dispatchSub_attempt (deliver : PushSubscriptionRec → DeliverResult)
    (task : CronTask) (sb : PushSubscriptionRec) (st : DispatchState)
    (hnolog : logEntryFor task sb ∉ st.db.log) :
    sb.id ∈ (dispatchSub deliver task sb st).attempts := by
  unfold dispatchSub
  dsimp only
  rw [if_neg]
  · cases hdel : deliver sb with
    | ok =>
      dsimp only
      exact List.mem_append_right _ (List.mem_singleton_self _)
    | err code =>
      dsimp only
      split
      · exact List.mem_append_right _ (List.mem_singleton_self _)
      · exact List.mem_append_right _ (List.mem_singleton_self _)
  · intro hcon
    exact hnolog (by simpa using hcon)

theorem dispatchSub_dead_remove (deliver : PushSubscriptionRec → DeliverResult)
    (task : CronTask) (sb : PushSubscriptionRec) (st : DispatchState)
    (hd : deadStatus (deliver sb) = true)
    (hnolog : logEntryFor task sb ∉ st.db.log) :
    ∀ y ∈ (dispatchSub deliver task sb st).db.subs, y.id ≠ sb.id := by
  unfold dispatchSub
  dsimp only
  rw [if_neg (by intro hcon; exact hnolog (by simpa using hcon))]
  cases hdel : deliver sb with
  | ok =>
    rw [hdel] at hd
    exact absurd hd (by unfold deadStatus; simp)
  | err code =>
    dsimp only
    rw [hdel] at hd
    unfold deadStatus at hd
    rw [if_pos hd]
    intro y hy
    have h2 := (List.mem_filter.mp hy).2
    simpa using h2

theorem subsFold_tasks (deliver : PushSubscriptionRec → DeliverResult)
    (task : CronTask) :
    ∀ (l : List PushSubscriptionRec) (st : DispatchState),
    (l.foldl (fun st x => dispatchSub deliver task x st) st).db.tasks =
      st.db.tasks := by
  intro l
  induction l with
  | nil => exact fun st => rfl
  | cons x xs ih =>
    intro st
    rw [List.foldl_cons, ih, dispatchSub_tasks]

theorem subsFold_subs_sublist (deliver : PushSubscriptionRec → DeliverResult)
    (task : CronTask) :
    ∀ (l : List PushSubscriptionRec) (st : DispatchState),
    (l.foldl (fun st x => dispatchSub deliver task x st) st).db.subs.Sublist
      st.db.subs := by
  intro l
  induction l with
  | nil => exact fun st => List.Sublist.refl _
  | cons x xs ih =>
    intro st
    rw [List.foldl_cons]
    exact List.Sublist.trans (ih _) (dispatchSub_subs_sublist deliver task x st)

theorem subsFold_keep (deliver : PushSubscriptionRec → DeliverResult)
    (task : CronTask) (y : PushSubscriptionRec) :
    ∀ (l : List PushSubscriptionRec) (st : DispatchState),
    y ∈ st.db.subs →
    (∀ x ∈ l, x.id = y.id → deadStatus (deliver x) = false) →
    y ∈ (l.foldl (fun st x => dispatchSub deliver task x st) st).db.subs := by
  intro l
  induction l with
  | nil => exact fun st hy _ => hy
  | cons x xs ih =>
    intro st hy hl
    rw [List.foldl_cons]
    refine ih _ ?_ (fun z hz hid => hl z (List.mem_cons_of_mem x hz) hid)
    exact dispatchSub_keep deliver task x st y hy
      (fun hid => hl x (List.mem_cons_self x xs) hid.symm)

theorem subsFold_log_mem (deliver : PushSubscriptionRec → DeliverResult)
    (task : CronTask) (e : NotificationLogEntry) :
    ∀ (l : List PushSubscriptionRec) (st : DispatchState),
    e ∈ (l.foldl (fun st x => dispatchSub deliver task x st) st).db.log →
    e ∈ st.db.log ∨ ∃ x ∈ l, e = logEntryFor task x ∧ deliver x = .ok := by
  intro l
  induction l with
  | nil => exact fun st he => Or.inl he
  | cons x xs ih =>
    intro st he
    rw [List.foldl_cons] at he
    rcases ih _ he with h1 | ⟨z, hz, hze⟩
    · rcases dispatchSub_log_mem deliver task x st e h1 with h2 | h2
      · exact Or.inl h2
      · exact Or.inr ⟨x, List.mem_cons_self x xs, h2⟩
    · exact Or.inr ⟨z, List.mem_cons_of_mem x hz, hze⟩

theorem subsFold_attempts_mono (deliver : PushSubscriptionRec → DeliverResult)
    (task : CronTask) (r : String) :
    ∀ (l : List PushSubscriptionRec) (st : DispatchState),
    r ∈ st.attempts →
    r ∈ (l.foldl (fun st x => dispatchSub deliver task x st) st).attempts := by
  intro l
  induction l with
  | nil => exact fun st hr => hr
  | cons x xs ih =>
    intro st hr
    rw [List.foldl_cons]
    exact ih _ (dispatchSub_attempts_mono deliver task x st r hr)

theorem subsFold_attempts_mem (deliver : PushSubscriptionRec → DeliverResult)
    (task : CronTask) (r : String) :
    ∀ (l : List PushSubscriptionRec) (st : DispatchState),
    r ∈ (l.foldl (fun st x => dispatchSub deliver task x st) st).attempts →
    r ∈ st.attempts ∨ ∃ x ∈ l, r = x.id := by
  intro l
  induction l with
  | nil => exact fun st hr => Or.inl hr
  | cons x xs ih =>
    intro st hr
    rw [List.foldl_cons] at hr
    rcases ih _ hr with h1 | ⟨z, hz, hze⟩
    · rcases dispatchSub_attempts_mem deliver task x st r h1 with h2 | h2
      · exact Or.inl h2
      · exact Or.inr ⟨x, List.mem_cons_self x xs, h2⟩
    · exact Or.inr ⟨z, List.mem_cons_of_mem x hz, hze⟩

/-- No log entry for subscription id `xid` ever appears while the processed
subscriptions either have different ids or fail to deliver. -/
theorem subsFold_no_log (deliver : PushSubscriptionRec → DeliverResult)
    (task : CronTask) (xid : String)
    (l : List PushSubscriptionRec) (st : DispatchState)
    (hst : ∀ e ∈ st.db.log, e.pushSubscriptionId ≠ xid)
    (hl : ∀ x ∈ l, x.id = xid → deliver x ≠ .ok) :
    ∀ e ∈ (l.foldl (fun st x => dispatchSub deliver task x st) st).db.log,
      e.pushSubscriptionId ≠ xid := by
  intro e he
  rcases subsFold_log_mem deliver task e l st he with h1 | ⟨x, hx, hee, hok⟩
  · exact hst e h1
  · rw [hee]
    show x.id ≠ xid
    intro hid
    exact hl x hx hid hok

theorem dispatchTask_attempts_mem (parseDue : String → String → Option Int)
    (deliver : PushSubscriptionRec → DeliverResult) (now : Int)
    (snap : List PushSubscriptionRec) (task : CronTask) (st : DispatchState)
    (a : String)
    (ha : a ∈ (dispatchTask parseDue deliver now snap task st).attempts) :
    a ∈ st.attempts ∨ ∃ x ∈ snap, a = x.id := by
  unfold dispatchTask at ha
  revert ha
  cases parseDue task.dueDate task.dueTime with
  | none => exact fun ha => Or.inl ha
  | some dueAt =>
    dsimp only
    split
    · exact fun ha => Or.inl ha
    · exact fun ha => subsFold_attempts_mem deliver task a snap st ha

/-- Every delivery attempt of a dispatcher run addresses a subscription that
is in the registry when the run starts. -/
theorem cronDispatch_attempts_mem (parseDue : String → String → Option Int)
    (deliver : PushSubscriptionRec → DeliverResult) (db : PushDb)
    (now : Int) :
    ∀ a ∈ (cronDispatch parseDue deliver db now).attempts,
      ∃ x ∈ db.subs, a = x.id := by
  have hgen : ∀ (sel : List (CronTask × List PushSubscriptionRec))
      (st : DispatchState),
      (∀ p ∈ sel, ∀ x ∈ p.2, x ∈ db.subs) →
      ∀ a ∈ (sel.foldl
          (fun st ts => dispatchTask parseDue deliver now ts.2 ts.1 st)
          st).attempts,
        a ∈ st.attempts ∨ ∃ x ∈ db.subs, a = x.id := by
    intro sel
    induction sel with
    | nil => exact fun st _ a ha => Or.inl ha
    | cons p rest ih =>
      intro st hsel a ha
      rw [List.foldl_cons] at ha
      rcases ih _ (fun q hq => hsel q (List.mem_cons_of_mem p hq)) a ha with
        h1 | h1
      · rcases dispatchTask_attempts_mem parseDue deliver now p.2 p.1 st a h1
          with h2 | ⟨x, hx, hxe⟩
        · exact Or.inl h2
        · exact Or.inr ⟨x, hsel p (List.mem_cons_self p rest) x hx, hxe⟩
      · exact Or.inr h1
  intro a ha
  have := hgen ((cronSelectedTasks db).map (fun t => (t, subsOfUser db t.userId)))
    { db := db, sent := 0, removedSubscriptions := 0, attempts := [] } ?_ a ha
  · rcases this with h1 | h1
    · exact absurd h1 (List.not_mem_nil a)
    · exact h1
  · intro p hp x hx
    obtain ⟨t, -, ht⟩ := List.mem_map.mp hp
    rw [← ht] at hx
    exact List.mem_of_mem_filter hx

/-- Reduction of a dispatcher run over a store holding exactly one task that
is incomplete, owned by a user with a subscription, and due inside the grace
window: the run is the walk over the owner's subscription snapshot. -/
theorem cronDispatch_single_task (parseDue : String → String → Option Int)
    (deliver : PushSubscriptionRec → DeliverResult) (now : Int) (t : CronTask)
    (subs : List PushSubscriptionRec) (log : List NotificationLogEntry)
    (d : Int)
    (hc : t.completed = false)
    (hany : subs.any (fun x => x.userId == t.userId) = true)
    (hp : parseDue t.dueDate t.dueTime = some d)
    (hw1 : d ≤ now) (hw2 : now - CRON_GRACE_MS ≤ d) :
    cronDispatch parseDue deliver
      { tasks := [t], subs := subs, log := log } now =
      (subs.filter (fun x => x.userId == t.userId)).foldl
        (fun st x => dispatchSub deliver t x st)
        { db := { tasks := [t], subs := subs, log := log }, sent := 0,
          removedSubscriptions := 0, attempts := [] } := by
  have hpt : (!t.completed && subs.any (fun sb => sb.userId == t.userId)) =
      true := by
    rw [hc]
    simpa using hany
  unfold cronDispatch cronSelectedTasks subsOfUser
  dsimp only
  rw [List.filter_cons, if_pos hpt, List.filter_nil, List.map_cons,
    List.map_nil, List.foldl_cons, List.foldl_nil]
  unfold dispatchTask
  rw [hp]
  dsimp only
  rw [if_neg (not_or.mpr ⟨not_lt.mpr hw1, not_lt.mpr hw2⟩)]

theorem nodup_split_ids (l1 l2 : List PushSubscriptionRec)
    (sb : PushSubscriptionRec)
    (hnd : ((l1 ++ sb :: l2).map (fun x => x.id)).Nodup) :
    (∀ x ∈ l1, x.id ≠ sb.id) ∧ (∀ x ∈ l2, x.id ≠ sb.id) := by
  rw [List.map_append, List.map_cons, List.nodup_append] at hnd
  obtain ⟨h1, h2, hdisj⟩ := hnd
  constructor
  · intro x hx hid
    exact hdisj (List.mem_map_of_mem _ hx)
      (by rw [hid]; exact List.mem_cons_self _ _)
  · intro x hx hid
    exact (List.nodup_cons.mp h2).1
      (by rw [← hid]; exact List.mem_map_of_mem _ hx)

/-- C7.  For a single due task whose owner's registry is `ss` (distinct
subscription ids): a subscription whose delivery reports gone/not-found
(404/410) ends the run deleted from the registry — no row with its id
remains — with no Notification Log entry written for it, and the next run
never attempts delivery to it; a subscription with any other delivery
failure stays registered, gets no log entry (so the (task, subscription,
due instant) combination stays eligible), and the next run attempts its
delivery again. -/
theorem c7_dead_pruned_transient_retried
    (parseDue : String → String → Option Int)
    (deliver : PushSubscriptionRec → DeliverResult) (now d : Int)
    (t : CronTask) (ss : List PushSubscriptionRec)
    (sb : PushSubscriptionRec)
    (hc : t.completed = false)
    (hss : ∀ x ∈ ss, x.userId = t.userId)
    (hnd : (ss.map (fun x => x.id)).Nodup)
    (hp : parseDue t.dueDate t.dueTime = some d)
    (hw1 : d ≤ now) (hw2 : now - CRON_GRACE_MS ≤ d)
    (hmem : sb ∈ ss) :
    (deadStatus (deliver sb) = true →
      (∀ y ∈ (cronDispatch parseDue deliver
          { tasks := [t], subs := ss, log := [] } now).db.subs,
        y.id ≠ sb.id) ∧
      (∀ e ∈ (cronDispatch parseDue deliver
          { tasks := [t], subs := ss, log := [] } now).db.log,
        e.pushSubscriptionId ≠ sb.id) ∧
      sb.id ∉ (cronDispatch parseDue deliver
        (cronDispatch parseDue deliver
          { tasks := [t], subs := ss, log := [] } now).db now).attempts) ∧
    (∀ code, deliver sb = .err code → deadStatus (deliver sb) = false →
      sb ∈ (cronDispatch parseDue deliver
          { tasks := [t], subs := ss, log := [] } now).db.subs ∧
      (∀ e ∈ (cronDispatch parseDue deliver
          { tasks := [t], subs := ss, log := [] } now).db.log,
        e.pushSubscriptionId ≠ sb.id) ∧
      sb.id ∈ (cronDispatch parseDue deliver
        (cronDispatch parseDue deliver
          { tasks := [t], subs := ss, log := [] } now).db now).attempts) := by
  set r1 := cronDispatch parseDue deliver
    { tasks := [t], subs := ss, log := [] } now with hr1
  set r2 := cronDispatch parseDue deliver r1.db now with hr2
  have hany : ss.any (fun x => x.userId == t.userId) = true :=
    List.any_eq_true.mpr ⟨sb, hmem, by simp [hss sb hmem]⟩
  have hfilter : ss.filter (fun x => x.userId == t.userId) = ss :=
    List.filter_eq_self.mpr (fun x hx => by simp [hss x hx])
  have hred1 : r1 = ss.foldl (fun st x => dispatchSub deliver t x st)
      { db := { tasks := [t], subs := ss, log := [] }, sent := 0,
        removedSubscriptions := 0, attempts := [] } := by
    rw [hr1, cronDispatch_single_task parseDue deliver now t ss [] d hc hany
      hp hw1 hw2, hfilter]
  have hinj : ∀ x ∈ ss, x.id = sb.id → x = sb := by
    intro x hx hid
    exact List.inj_on_of_nodup_map hnd hx hmem hid
  obtain ⟨l1, l2, hsplit⟩ := List.append_of_mem hmem
  have hids := nodup_split_ids l1 l2 sb (by rw [← hsplit]; exact hnd)
  have hrsubs_sub : r1.db.subs.Sublist ss := by
    rw [hred1]
    exact subsFold_subs_sublist deliver t ss _
  have hrtasks : r1.db.tasks = [t] := by
    rw [hred1]
    rw [subsFold_tasks]
  have hlogA : deliver sb ≠ .ok →
      ∀ e ∈ r1.db.log, e.pushSubscriptionId ≠ sb.id := by
    intro hne
    rw [hred1]
    refine subsFold_no_log deliver t sb.id ss _ ?_ ?_
    · intro e he
      exact absurd he (List.not_mem_nil e)
    · intro x hx hid
      rw [hinj x hx hid]
      exact hne
  constructor
  · -- dead subscription: pruned, unlogged, not retried
    intro hdead
    have hne : deliver sb ≠ .ok := by
      intro hok
      rw [hok] at hdead
      exact Bool.noConfusion hdead
    have hlog := hlogA hne
    have hsubs1 : ∀ y ∈ r1.db.subs, y.id ≠ sb.id := by
      rw [hred1, hsplit, List.foldl_append, List.foldl_cons]
      have hst1log : ∀ e ∈ (l1.foldl (fun st x => dispatchSub deliver t x st)
          { db := { tasks := [t], subs := l1 ++ sb :: l2, log := [] },
            sent := 0, removedSubscriptions := 0,
            attempts := [] }).db.log,
          e.pushSubscriptionId ≠ sb.id := by
        refine subsFold_no_log deliver t sb.id l1 _ ?_ ?_
        · intro e he
          exact absurd he (List.not_mem_nil e)
        · intro x hx hid
          exact absurd hid (hids.1 x hx)
      have hnolog : logEntryFor t sb ∉
          (l1.foldl (fun st x => dispatchSub deliver t x st)
            { db := { tasks := [t], subs := l1 ++ sb :: l2, log := [] },
              sent := 0, removedSubscriptions := 0,
              attempts := [] }).db.log := by
        intro hcon
        exact (hst1log _ hcon) rfl
      have hremove := dispatchSub_dead_remove deliver t sb _ hdead hnolog
      intro y hy
      exact hremove y ((subsFold_subs_sublist deliver t l2 _).subset hy)
    refine ⟨hsubs1, hlog, ?_⟩
    intro hcon
    obtain ⟨x, hx, hxe⟩ :=
      cronDispatch_attempts_mem parseDue deliver r1.db now sb.id hcon
    exact (hsubs1 x hx) hxe.symm
  · -- transient failure: kept, unlogged, retried by the next run
    intro code hcode hdead2
    have hne : deliver sb ≠ .ok := by
      rw [hcode]
      intro hcon
      exact DeliverResult.noConfusion hcon
    have hkeep : sb ∈ r1.db.subs := by
      rw [hred1]
      refine subsFold_keep deliver t sb ss _ hmem ?_
      intro x hx hid
      rw [hinj x hx hid]
      exact hdead2
    have hlog := hlogA hne
    refine ⟨hkeep, hlog, ?_⟩
    have hrdb : r1.db =
        { tasks := [t], subs := r1.db.subs, log := r1.db.log } := by
      have heta : r1.db = { tasks := r1.db.tasks, subs := r1.db.subs, log := r1.db.log } := rfl
      nth_rewrite 1 [heta]
      rw [hrtasks]
    have hany2 : r1.db.subs.any (fun x => x.userId == t.userId) = true :=
      List.any_eq_true.mpr ⟨sb, hkeep, by simp [hss sb hmem]⟩
    have hfilter2 : r1.db.subs.filter (fun x => x.userId == t.userId) =
        r1.db.subs :=
      List.filter_eq_self.mpr
        (fun x hx => by simp [hss x (hrsubs_sub.subset hx)])
    have hnd2 : (r1.db.subs.map (fun x => x.id)).Nodup :=
      List.Nodup.sublist (hrsubs_sub.map _) hnd
    have hred2 : r2 = r1.db.subs.foldl
        (fun st x => dispatchSub deliver t x st)
        { db := { tasks := [t], subs := r1.db.subs, log := r1.db.log },
          sent := 0, removedSubscriptions := 0, attempts := [] } := by
      rw [hr2]
      conv_lhs => rw [hrdb]
      rw [cronDispatch_single_task parseDue deliver now t r1.db.subs
        r1.db.log d hc hany2 hp hw1 hw2, hfilter2]
    obtain ⟨m1, m2, hsplit2⟩ := List.append_of_mem hkeep
    have hids2 := nodup_split_ids m1 m2 sb (by rw [← hsplit2]; exact hnd2)
    rw [hred2, hsplit2, List.foldl_append, List.foldl_cons]
    have hst1log : ∀ e ∈ (m1.foldl (fun st x => dispatchSub deliver t x st)
        { db := { tasks := [t], subs := m1 ++ sb :: m2, log := r1.db.log },
          sent := 0, removedSubscriptions := 0, attempts := [] }).db.log,
        e.pushSubscriptionId ≠ sb.id := by
      refine subsFold_no_log deliver t sb.id m1 _ ?_ ?_
      · exact hlog
      · intro x hx hid
        exact absurd hid (hids2.1 x hx)
    have hnolog : logEntryFor t sb ∉
        (m1.foldl (fun st x => dispatchSub deliver t x st)
          { db := { tasks := [t], subs := m1 ++ sb :: m2, log := r1.db.log },
            sent := 0, removedSubscriptions := 0,
            attempts := [] }).db.log := by
      intro hcon
      exact (hst1log _ hcon) rfl
    exact subsFold_attempts_mono deliver t sb.id m2 _
      (dispatchSub_attempt deliver t sb _ hnolog)

/-- C7 witness: one due task, two subscriptions — delivery to "sa" reports
410 gone, delivery to "sb" fails with a 500. -/
theorem c7_dead_pruned_transient_retried_witness :
    (deadStatus ((fun x : PushSubscriptionRec =>
        if x.id == "sa" then DeliverResult.err (some 410)
        else DeliverResult.err (some 500))
        { id := "sa", endpoint := "ea", p256dh := "pa", auth := "aa", userId := "user-2" }) = true →
      (∀ y ∈ (cronDispatch (fun _ tm => if tm == "09:00" then some 0 else none)
          (fun x : PushSubscriptionRec =>
            if x.id == "sa" then DeliverResult.err (some 410)
            else DeliverResult.err (some 500))
          { tasks := [{ id := 2, title := "Standup", dueDate := "2026-07-01",
                        dueTime := "09:00", completed := false,
                        userId := "user-2" }],
            subs := [{ id := "sa", endpoint := "ea", p256dh := "pa",
                       auth := "aa", userId := "user-2" },
                     { id := "sb", endpoint := "eb", p256dh := "pb",
                       auth := "ab", userId := "user-2" }],
            log := [] } 300000).db.subs,
        y.id ≠ ({ id := "sa", endpoint := "ea", p256dh := "pa", auth := "aa", userId := "user-2" } : PushSubscriptionRec).id) ∧
      (∀ e ∈ (cronDispatch (fun _ tm => if tm == "09:00" then some 0 else none)
          (fun x : PushSubscriptionRec =>
            if x.id == "sa" then DeliverResult.err (some 410)
            else DeliverResult.err (some 500))
          { tasks := [{ id := 2, title := "Standup", dueDate := "2026-07-01",
                        dueTime := "09:00", completed := false,
                        userId := "user-2" }],
            subs := [{ id := "sa", endpoint := "ea", p256dh := "pa",
                       auth := "aa", userId := "user-2" },
                     { id := "sb", endpoint := "eb", p256dh := "pb",
                       auth := "ab", userId := "user-2" }],
            log := [] } 300000).db.log,
        e.pushSubscriptionId ≠ ({ id := "sa", endpoint := "ea", p256dh := "pa", auth := "aa", userId := "user-2" } : PushSubscriptionRec).id) ∧
      ({ id := "sa", endpoint := "ea", p256dh := "pa", auth := "aa", userId := "user-2" } : PushSubscriptionRec).id ∉
        (cronDispatch (fun _ tm => if tm == "09:00" then some 0 else none)
          (fun x : PushSubscriptionRec =>
            if x.id == "sa" then DeliverResult.err (some 410)
            else DeliverResult.err (some 500))
          (cronDispatch (fun _ tm => if tm == "09:00" then some 0 else none)
            (fun x : PushSubscriptionRec =>
              if x.id == "sa" then DeliverResult.err (some 410)
              else DeliverResult.err (some 500))
            { tasks := [{ id := 2, title := "Standup",
                          dueDate := "2026-07-01", dueTime := "09:00",
                          completed := false, userId := "user-2" }],
              subs := [{ id := "sa", endpoint := "ea", p256dh := "pa",
                         auth := "aa", userId := "user-2" },
                       { id := "sb", endpoint := "eb", p256dh := "pb",
                         auth := "ab", userId := "user-2" }],
              log := [] } 300000).db 300000).attempts) ∧
    (∀ code, (fun x : PushSubscriptionRec =>
        if x.id == "sa" then DeliverResult.err (some 410)
        else DeliverResult.err (some 500))
        { id := "sa", endpoint := "ea", p256dh := "pa", auth := "aa", userId := "user-2" } = DeliverResult.err code →
      deadStatus ((fun x : PushSubscriptionRec =>
        if x.id == "sa" then DeliverResult.err (some 410)
        else DeliverResult.err (some 500))
        { id := "sa", endpoint := "ea", p256dh := "pa", auth := "aa", userId := "user-2" }) = false →
      ({ id := "sa", endpoint := "ea", p256dh := "pa", auth := "aa", userId := "user-2" } : PushSubscriptionRec) ∈
        (cronDispatch (fun _ tm => if tm == "09:00" then some 0 else none)
          (fun x : PushSubscriptionRec =>
            if x.id == "sa" then DeliverResult.err (some 410)
            else DeliverResult.err (some 500))
          { tasks := [{ id := 2, title := "Standup", dueDate := "2026-07-01",
                        dueTime := "09:00", completed := false,
                        userId := "user-2" }],
            subs := [{ id := "sa", endpoint := "ea", p256dh := "pa",
                       auth := "aa", userId := "user-2" },
                     { id := "sb", endpoint := "eb", p256dh := "pb",
                       auth := "ab", userId := "user-2" }],
            log := [] } 300000).db.subs ∧
      (∀ e ∈ (cronDispatch (fun _ tm => if tm == "09:00" then some 0 else none)
          (fun x : PushSubscriptionRec =>
            if x.id == "sa" then DeliverResult.err (some 410)
            else DeliverResult.err (some 500))
          { tasks := [{ id := 2, title := "Standup", dueDate := "2026-07-01",
                        dueTime := "09:00", completed := false,
                        userId := "user-2" }],
            subs := [{ id := "sa", endpoint := "ea", p256dh := "pa",
                       auth := "aa", userId := "user-2" },
                     { id := "sb", endpoint := "eb", p256dh := "pb",
                       auth := "ab", userId := "user-2" }],
            log := [] } 300000).db.log,
        e.pushSubscriptionId ≠ ({ id := "sa", endpoint := "ea", p256dh := "pa", auth := "aa", userId := "user-2" } : PushSubscriptionRec).id) ∧
      ({ id := "sa", endpoint := "ea", p256dh := "pa", auth := "aa", userId := "user-2" } : PushSubscriptionRec).id ∈
        (cronDispatch (fun _ tm => if tm == "09:00" then some 0 else none)
          (fun x : PushSubscriptionRec =>
            if x.id == "sa" then DeliverResult.err (some 410)
            else DeliverResult.err (some 500))
          (cronDispatch (fun _ tm => if tm == "09:00" then some 0 else none)
            (fun x : PushSubscriptionRec =>
              if x.id == "sa" then DeliverResult.err (some 410)
              else DeliverResult.err (some 500))
            { tasks := [{ id := 2, title := "Standup",
                          dueDate := "2026-07-01", dueTime := "09:00",
                          completed := false, userId := "user-2" }],
              subs := [{ id := "sa", endpoint := "ea", p256dh := "pa",
                         auth := "aa", userId := "user-2" },
                       { id := "sb", endpoint := "eb", p256dh := "pb",
                         auth := "ab", userId := "user-2" }],
              log := [] } 300000).db 300000).attempts) :=
  c7_dead_pruned_transient_retried
    (fun _ tm => if tm == "09:00" then some 0 else none)
    (fun x : PushSubscriptionRec =>
      if x.id == "sa" then DeliverResult.err (some 410)
      else DeliverResult.err (some 500)) 300000 0
    { id := 2, title := "Standup", dueDate := "2026-07-01",
      dueTime := "09:00", completed := false, userId := "user-2" }
    [{ id := "sa", endpoint := "ea", p256dh := "pa", auth := "aa",
       userId := "user-2" },
     { id := "sb", endpoint := "eb", p256dh := "pb", auth := "ab",
       userId := "user-2" }]
    { id := "sa", endpoint := "ea", p256dh := "pa", auth := "aa",
      userId := "user-2" }
    rfl (by decide) (by decide) rfl (by decide) (by decide) (by decide)

end TaskFlow
